import Mathlib

/-!
# A verification development for the behavioral pattern-mining and consolidation engine

This file gives a shallow embedding, in Lean 4, of the memory subsystem of the
AGI-codex repository: the workflow tracker (activity log store), the pattern
recognizer, and the memory consolidator
(src/agi_core/memory/workflow_tracker.py, pattern_recognizer.py,
consolidation.py, together with the record classes of enhanced_episodic.py and
enhanced_semantic.py).

Modelling conventions:
* Python strings are modelled as lists of characters (PyStr).
* Python datetime instants are modelled as integers (seconds since the epoch);
  a timedelta .days field is floor division of the difference by 86400,
  matching the normalized representation of datetime.timedelta.
* Python floats are modelled as exact rationals.  The only float operation
  without a rational counterpart, x ** 0.5 in _calculate_pattern_confidence,
  is passed in as an explicit function parameter (sqrtFn); theorems either
  hold for every such function or instantiate it with ratSqrt, which agrees
  with the float computation on the perfect squares at which it is evaluated.
* Python dicts are modelled as association lists in insertion order, with
  update-or-append assignment (pyDictSet); dict equality in claims is stated
  as equality of lookups, which matches Python dict equality.
* Objects of the record classes of this code base use the default object
  identity for ==, so list.remove in cleanup_old_memories removes exactly the
  iterated element; the net effect on a list is a filter, and it is modelled
  as such.
-/

/-- A Python string, modelled as its list of characters. -/
abbrev PyStr := List Char

/-- Shorthand for turning a Lean string literal into a PyStr. -/
def pystr (s : String) : PyStr := s.toList

/-- Python "|".join(parts) for a one-character separator. -/
def joinSep (c : Char) : List PyStr → PyStr
  | [] => []
  | [p] => p
  | p :: q :: ps => p ++ c :: joinSep c (q :: ps)

/-- Python s.split(sep) for a one-character separator: "".split gives [""]. -/
def splitOnChar (c : Char) : PyStr → List PyStr
  | [] => [[]]
  | x :: xs =>
    match splitOnChar c xs with
    | [] => [[]]
    | y :: ys => if x = c then [] :: y :: ys else (x :: y) :: ys

/-- Python s.split(sep, 1) for a one-character separator, as the pair of the
part before the first separator and the rest; none when the separator is
absent. -/
def splitFirst (c : Char) : PyStr → Option (PyStr × PyStr)
  | [] => none
  | x :: xs =>
    if x = c then some ([], xs)
    else (splitFirst c xs).map (fun p => (x :: p.1, p.2))

/-- Lexicographic comparison of Python strings by code point (the order used
by sorted on str). -/
def lexLt : PyStr → PyStr → Bool
  | [], [] => false
  | [], _ :: _ => true
  | _ :: _, [] => false
  | a :: as, b :: bs => if a = b then lexLt as bs else decide (a < b)

/-- Insert into an ascending list (used to model Python sorted on strings). -/
def insertAsc (x : PyStr) : List PyStr → List PyStr
  | [] => [x]
  | y :: ys => if lexLt y x then y :: insertAsc x ys else x :: y :: ys

/-- Python sorted on a list of strings. -/
def sortStrs (l : List PyStr) : List PyStr := l.foldr insertAsc []

/-- Python dict access d.get(k): the value at the first matching key. -/
def pyLookup {κ β : Type} [DecidableEq κ] : List (κ × β) → κ → Option β
  | [], _ => none
  | kv :: rest, k => if kv.1 = k then some kv.2 else pyLookup rest k

/-- Python membership test v in d for dict keys. -/
def hasKey {κ β : Type} [DecidableEq κ] (d : List (κ × β)) (k : κ) : Bool :=
  d.any (fun kv => kv.1 = k)

/-- Python dict assignment d[k] = v on an insertion-ordered association list:
update in place when the key exists, append otherwise. -/
def pyDictSet {κ β : Type} [DecidableEq κ] (d : List (κ × β)) (k : κ) (v : β) :
    List (κ × β) :=
  if hasKey d k then
    d.map (fun kv => if kv.1 = k then (kv.1, v) else kv)
  else d ++ [(k, v)]

/-- Python collections.Counter increment counts[k] += 1 (insertion-ordered). -/
def counterAdd {κ : Type} [DecidableEq κ] (d : List (κ × ℕ)) (k : κ) :
    List (κ × ℕ) :=
  if hasKey d k then
    d.map (fun kv => if kv.1 = k then (kv.1, kv.2 + 1) else kv)
  else d ++ [(k, 1)]

/-- Lookup in a Counter: a missing key counts 0. -/
def counterGet {κ : Type} [DecidableEq κ] (d : List (κ × ℕ)) (k : κ) : ℕ :=
  (pyLookup d k).getD 0

/-- Counter.most_common(1)[0][0]: the first key holding the maximum count
(Counter.most_common sorts by count descending, stably, so ties go to the
earlier insertion). Returns none for an empty counter. -/
def mostCommonKey {κ : Type} : List (κ × ℕ) → Option κ
  | [] => none
  | kv :: rest =>
    some (rest.foldl (fun best p => if p.2 > best.2 then p else best) kv).1

/-- Python membership x in l for a string against a collection of strings. -/
def pyContains (l : List PyStr) (x : PyStr) : Bool :=
  l.any (fun y => decide (y = x))

/-- Python x in s for an optional string against a set of strings:
None is never a member of a set of strings. -/
def optMem (o : Option PyStr) (l : List PyStr) : Bool :=
  match o with
  | none => false
  | some s => pyContains l s

/-- The number of occurrences of x in l (the count Python keeps per key). -/
def countOcc {α : Type} [DecidableEq α] (x : α) (l : List α) : ℕ :=
  (l.filter (fun y => decide (y = x))).length

/-- First-occurrence deduplication; models iterating a Python set built from a
list (the iteration order of a set is unspecified, a fixed deterministic
order is chosen). -/
def dedupFirst {κ : Type} [DecidableEq κ] (l : List κ) : List κ :=
  l.foldl (fun acc x => if acc.contains x then acc else acc ++ [x]) []

/-- Stable insertion for a descending sort: x is placed before the first
element it does not rank strictly below, so that Python list.sort(key=...,
reverse=True) stability is preserved. -/
def insertDesc {α : Type} (ge : α → α → Bool) (x : α) : List α → List α
  | [] => [x]
  | y :: ys => if ge x y then x :: y :: ys else y :: insertDesc ge x ys

/-- Python list.sort(key=..., reverse=True) given the induced ge test. -/
def sortDesc {α : Type} (ge : α → α → Bool) (l : List α) : List α :=
  l.foldr (insertDesc ge) []

/-- Seconds per day, for timedelta(days=n) arithmetic. -/
def secondsPerDay : ℤ := 86400

/-- timedelta .days of a difference of instants in seconds: floor division,
matching the normalized days/seconds/microseconds representation. -/
def timedeltaDays (d : ℤ) : ℤ := Int.fdiv d secondsPerDay

/-- datetime.weekday() of an instant (0 = Monday); the epoch fell on a
Thursday, weekday 3. -/
def weekdayOf (t : ℤ) : ℤ := (Int.fdiv t secondsPerDay + 3) % 7

/-- datetime.hour of an instant (UTC). -/
def hourOf (t : ℤ) : ℤ := (Int.fdiv t 3600) % 24

/-- Exact rational square root, exact on rationals whose numerator and
denominator are perfect squares.  Used to instantiate the abstract sqrtFn
parameter at inputs where the Python float computation x ** 0.5 is itself
exact (0, 16, ...). -/
def ratSqrt (q : ℚ) : ℚ := (Nat.sqrt q.num.toNat : ℚ) / (Nat.sqrt q.den : ℚ)

/-! ## Data model (workflow_tracker.py, enhanced_episodic.py, consolidation.py) -/

/-- ActivityLog (workflow_tracker.py): a single activity log entry.  Context
and metadata are string-valued dicts, which is how the engine populates and
reads them. -/
structure ActivityLog where
  activity_id : PyStr
  user_id : PyStr
  activity_type : PyStr
  description : PyStr
  timestamp : ℤ
  duration : Option ℚ
  success : Bool
  context : List (PyStr × PyStr)
  metadata : List (PyStr × PyStr)
deriving DecidableEq, Inhabited

/-- ActivitySession (workflow_tracker.py). -/
structure ActivitySession where
  session_id : PyStr
  user_id : PyStr
  start_time : ℤ
  end_time : Option ℤ
  goal : Option PyStr
  project_context : Option PyStr
  activities : List ActivityLog
  metadata : List (PyStr × PyStr)
deriving DecidableEq

/-- UserInteractionRecord (enhanced_episodic.py). -/
structure UserInteractionRecord where
  user_id : PyStr
  interaction_type : PyStr
  content : PyStr
  timestamp : ℤ
  project_context : Option PyStr
  goal_type : Option PyStr
deriving DecidableEq

/-- WorkflowPattern (enhanced_episodic.py): a detected workflow pattern held
by the episodic store. -/
structure WorkflowPattern where
  pattern_id : PyStr
  user_id : PyStr
  pattern_type : PyStr
  frequency : ℕ
  last_occurred : ℤ
  recurring_tasks : List PyStr
  context : List (PyStr × PyStr)
deriving DecidableEq

/-- TaskPattern (pattern_recognizer.py): a recurring task pattern. -/
structure TaskPattern where
  task_name : PyStr
  frequency : ℕ
  avg_interval_days : ℚ
  context : List (PyStr × PyStr)
  confidence : ℚ
  schedule_pattern : PyStr
deriving DecidableEq

/-- HabitPattern (pattern_recognizer.py): a recurring habit pattern. -/
structure HabitPattern where
  habit_name : PyStr
  frequency : ℕ
  avg_interval_days : ℚ
  time_of_day : PyStr
  context : List (PyStr × PyStr)
  confidence : ℚ
deriving DecidableEq

/-! ## Pattern recognizer (pattern_recognizer.py) -/

/-- The fixed, ordered list of salient context keys of
_create_context_signature. -/
def important_keys : List PyStr :=
  [pystr "project_context", pystr "goal_type", pystr "tool_used", pystr "file_path"]

/-- _create_context_signature: for each important key present in the context
with a truthy (non-empty) value, emit "key=value"; join the sorted parts
with "|". -/
def create_context_signature (context : List (PyStr × PyStr)) : PyStr :=
  let parts := important_keys.filterMap (fun key =>
    match pyLookup context key with
    | some v => if v ≠ [] then some (key ++ '=' :: v) else none
    | none => none)
  joinSep '|' (sortStrs parts)

/-- _parse_context_signature: split on "|", and for every part containing "="
assign context[key] = value at the first "=". -/
def parse_context_signature (signature : PyStr) : List (PyStr × PyStr) :=
  if signature = [] then []
  else
    (splitOnChar '|' signature).foldl (fun ctx part =>
      match splitFirst '=' part with
      | some kv => pyDictSet ctx kv.1 kv.2
      | none => ctx) []

/-- _determine_schedule_pattern: classify the mean interval against fixed
tolerance bands. -/
def determine_schedule_pattern (intervals : List ℚ) : PyStr :=
  if intervals = [] then pystr "irregular"
  else
    let avg := intervals.sum / (intervals.length : ℚ)
    if 4/5 ≤ avg ∧ avg ≤ 6/5 then pystr "daily"
    else if 13/2 ≤ avg ∧ avg ≤ 15/2 then pystr "weekly"
    else if 28 ≤ avg ∧ avg ≤ 32 then pystr "monthly"
    else if 27/2 ≤ avg ∧ avg ≤ 29/2 then pystr "biweekly"
    else pystr "irregular"

/-- _calculate_pattern_confidence.  sqrtFn models the float operation
variance ** 0.5.  The branch structure (including the if/elif order of the
two boosts) mirrors the source exactly. -/
def calculate_pattern_confidence (sqrtFn : ℚ → ℚ) (intervals : List ℚ) : ℚ :=
  if intervals.length < 2 then 1/2
  else
    let avg_interval := intervals.sum / (intervals.length : ℚ)
    if avg_interval = 0 then 1/2
    else
      let variance := (intervals.map (fun x => (x - avg_interval) ^ 2)).sum / (intervals.length : ℚ)
      let std_dev := sqrtFn variance
      let coeff_of_variation := std_dev / avg_interval
      let confidence := max 0 (min 1 (1 - coeff_of_variation))
      if 5 ≤ intervals.length then min 1 (confidence * (6/5))
      else if 10 ≤ intervals.length then min 1 (confidence * (3/2))
      else confidence

/-- get_user_activities (workflow_tracker.py): activities of the user whose
timestamp is on or after now - days_back days. -/
def get_user_activities (now : ℤ) (logs : List ActivityLog) (user_id : PyStr)
    (days_back : ℕ) : List ActivityLog :=
  let cutoff_date := now - (days_back : ℤ) * secondsPerDay
  logs.filter (fun a => decide (a.user_id = user_id ∧ cutoff_date ≤ a.timestamp))

/-- get_user_sessions (workflow_tracker.py): sessions of the user whose
start_time is on or after now - days_back days, in dict-value order. -/
def get_user_sessions (now : ℤ) (sessions : List (PyStr × ActivitySession))
    (user_id : PyStr) (days_back : ℕ) : List ActivitySession :=
  let cutoff_date := now - (days_back : ℤ) * secondsPerDay
  (sessions.map (fun kv => kv.2)).filter
    (fun s => decide (s.user_id = user_id ∧ cutoff_date ≤ s.start_time))

/-- get_user_interactions (enhanced_episodic.py). -/
def get_user_interactions (now : ℤ) (interactions : List UserInteractionRecord)
    (user_id : PyStr) (days_back : ℕ) : List UserInteractionRecord :=
  let cutoff_date := now - (days_back : ℤ) * secondsPerDay
  interactions.filter (fun i => decide (i.user_id = user_id ∧ cutoff_date ≤ i.timestamp))

/-- The grouping signature of detect_recurring_tasks:
f-string activity_type:context_signature. -/
def activity_signature (a : ActivityLog) : PyStr :=
  a.activity_type ++ ':' :: create_context_signature a.context

/-- defaultdict(list) grouping in iteration order: groups keyed by signature,
keys in first-occurrence order, each group in list order. -/
def groupBy {κ α : Type} [DecidableEq κ] (key : α → κ) (l : List α) :
    List (κ × List α) :=
  l.foldl (fun groups a =>
    let k := key a
    if groups.any (fun g => g.1 = k) then
      groups.map (fun g => if g.1 = k then (g.1, g.2 ++ [a]) else g)
    else groups ++ [(k, [a])]) []

/-- sorted(group, key=lambda x: x.timestamp): stable ascending sort. -/
def sortByTimestamp (l : List ActivityLog) : List ActivityLog :=
  l.foldr (fun a sorted => insertByTs a sorted) []
where
  insertByTs (a : ActivityLog) : List ActivityLog → List ActivityLog
    | [] => [a]
    | b :: bs =>
      if decide (a.timestamp ≤ b.timestamp) then a :: b :: bs
      else b :: insertByTs a bs

/-- Consecutive day intervals of a list of records sorted by timestamp:
(sorted[i].timestamp - sorted[i-1].timestamp).days. -/
def dayIntervals (sorted : List ActivityLog) : List ℤ :=
  (sorted.zip sorted.tail).map (fun p => timedeltaDays (p.2.timestamp - p.1.timestamp))

/-- Descending comparison on the (confidence, frequency) sort key. -/
def taskSortGe (x y : TaskPattern) : Bool :=
  decide ((y.confidence, (y.frequency : ℚ)) ≤ (x.confidence, (x.frequency : ℚ)))

/-- detect_recurring_tasks (pattern_recognizer.py).  sqrtFn models the float
square root used by _calculate_pattern_confidence; the 180-day window is the
literal in the source. -/
def detect_recurring_tasks (sqrtFn : ℚ → ℚ) (now : ℤ) (logs : List ActivityLog)
    (user_id : PyStr) (min_frequency : ℕ) : List TaskPattern :=
  let activities := get_user_activities now logs user_id 180
  if activities = [] then []
  else
    let activity_groups := groupBy activity_signature activities
    let recurring_tasks := activity_groups.filterMap (fun g =>
      if min_frequency ≤ g.2.length then
        let sorted_activities := sortByTimestamp g.2
        let intervals := (dayIntervals sorted_activities).map (fun i => (i : ℚ))
        let avg_interval := if intervals = [] then 0 else intervals.sum / (intervals.length : ℚ)
        let schedule_pattern := determine_schedule_pattern intervals
        let confidence := calculate_pattern_confidence sqrtFn intervals
        let split := (splitFirst ':' g.1).getD (g.1, [])
        some { task_name := split.1
               frequency := g.2.length
               avg_interval_days := avg_interval
               context := parse_context_signature split.2
               confidence := confidence
               schedule_pattern := schedule_pattern }
      else none)
    sortDesc taskSortGe recurring_tasks

/-- The day-part bucket of an hour, as used by detect_user_habits and
detect_time_based_patterns. -/
def timeOfDayBucket (hour : ℤ) : PyStr :=
  if 5 ≤ hour ∧ hour < 12 then pystr "morning"
  else if 12 ≤ hour ∧ hour < 17 then pystr "afternoon"
  else if 17 ≤ hour ∧ hour < 21 then pystr "evening"
  else pystr "night"

/-- Descending comparison on the (confidence, frequency) key for habits. -/
def habitSortGe (x y : HabitPattern) : Bool :=
  decide ((y.confidence, (y.frequency : ℚ)) ≤ (x.confidence, (x.frequency : ℚ)))

/-- detect_user_habits (pattern_recognizer.py): groups by activity type only,
picks the plurality day-part, and scores confidence identically to
detect_recurring_tasks; 180-day window as in the source. -/
def detect_user_habits (sqrtFn : ℚ → ℚ) (now : ℤ) (logs : List ActivityLog)
    (user_id : PyStr) (min_frequency : ℕ) : List HabitPattern :=
  let activities := get_user_activities now logs user_id 180
  if activities = [] then []
  else
    let activity_groups := groupBy (fun a => a.activity_type) activities
    let habits := activity_groups.filterMap (fun g =>
      if min_frequency ≤ g.2.length then
        let time_of_day_counts := g.2.foldl
          (fun cnt a => counterAdd cnt (timeOfDayBucket (hourOf a.timestamp))) []
        let most_common_time := (mostCommonKey time_of_day_counts).getD (pystr "irregular")
        let sorted_activities := sortByTimestamp g.2
        let intervals := (dayIntervals sorted_activities).map (fun i => (i : ℚ))
        let avg_interval := if intervals = [] then 0 else intervals.sum / (intervals.length : ℚ)
        let confidence := calculate_pattern_confidence sqrtFn intervals
        some { habit_name := g.1
               frequency := g.2.length
               avg_interval_days := avg_interval
               time_of_day := most_common_time
               context := (g.2.headI).context
               confidence := confidence }
      else none)
    sortDesc habitSortGe habits

/-- The contiguous subsequences of length at least 2, generated in the loop
order of detect_workflow_patterns: for i in range(len), for j in
range(i + 2, len + 1), sequence[i:j]. -/
def subsequencesOf {α : Type} (sequence : List α) : List (List α) :=
  (List.range sequence.length).flatMap (fun i =>
    (List.range' (i + 2) (sequence.length + 1 - (i + 2))).map
      (fun j => (sequence.drop i).take (j - i)))

/-- The Counter of subsequences across all activity sequences
(pattern_counts of detect_workflow_patterns). -/
def patternCounts {α : Type} [DecidableEq α] (activity_sequences : List (List α)) :
    List (List α × ℕ) :=
  activity_sequences.foldl (fun counts sequence =>
    (subsequencesOf sequence).foldl (fun c sub => counterAdd c sub) counts) []

/-- A workflow pattern dict as returned by detect_workflow_patterns. -/
structure WorkflowDict where
  pattern_id : PyStr
  pattern_activities : List PyStr
  pattern_contexts : List PyStr
  frequency : ℕ
  confidence : ℚ
deriving DecidableEq

/-- Descending comparison on the (frequency, confidence) sort key. -/
def workflowSortGe (x y : WorkflowDict) : Bool :=
  decide (((y.frequency : ℚ), y.confidence) ≤ ((x.frequency : ℚ), x.confidence))

/-- detect_workflow_patterns (pattern_recognizer.py).  patternHash models the
Python expression hash(str(pattern)) % 10000 used only to mint pattern_id
(string hashing is salted per process, so it is passed in abstractly);
180-day window as in the source. -/
def detect_workflow_patterns (patternHash : List (PyStr × PyStr) → ℕ) (now : ℤ)
    (sessions : List (PyStr × ActivitySession)) (user_id : PyStr)
    (min_frequency : ℕ) : List WorkflowDict :=
  let user_sessions := get_user_sessions now sessions user_id 180
  if user_sessions = [] then []
  else
    let activity_sequences := (user_sessions.filter (fun s => 1 < s.activities.length)).map
      (fun s => s.activities.map (fun a => (a.activity_type, create_context_signature a.context)))
    let pattern_counts := patternCounts activity_sequences
    let common_patterns := pattern_counts.filterMap (fun pc =>
      if min_frequency ≤ pc.2 then
        some { pattern_id := pystr "workflow_" ++ (Nat.toDigits 10 (patternHash pc.1 % 10000)),
               pattern_activities := pc.1.map (fun item => item.1),
               pattern_contexts := pc.1.map (fun item => item.2),
               frequency := pc.2,
               confidence := min 1 ((pc.2 : ℚ) / 5) }
      else none)
    (sortDesc workflowSortGe common_patterns).take 20

/-- The populated time-based summary dict of detect_time_based_patterns
(the shape the code would return if its entropy loop completed). -/
structure TimeBasedSummary where
  most_active_hour : Option ℤ
  most_active_day : Option ℤ
  time_of_day_preferences : List (PyStr × ℕ)
  activity_type_consistency : List (PyStr × ℚ)
  hourly_activity_distribution : List (ℤ × ℕ)
  daily_activity_distribution : List (ℤ × ℕ)
deriving DecidableEq

/-- detect_time_based_patterns (pattern_recognizer.py).  The result is an
Except because the consistency loop evaluates prob.log2() and len.log2():
Python floats and ints have no log2 method, so the first entropy term of the
first activity type raises AttributeError.  The loop runs whenever
weekly_patterns is non-empty, i.e. whenever the windowed activity list is
non-empty; the empty case returns the empty dict (modelled as .ok none);
365-day window as in the source. -/
def detect_time_based_patterns (now : ℤ) (logs : List ActivityLog)
    (user_id : PyStr) : Except PyStr (Option TimeBasedSummary) :=
  let activities := get_user_activities now logs user_id 365
  if activities = [] then Except.ok none
  else
    let hour_counts := activities.foldl (fun c a => counterAdd c (hourOf a.timestamp)) []
    let day_counts := activities.foldl (fun c a => counterAdd c (weekdayOf a.timestamp)) []
    let time_of_day_counts := activities.foldl
      (fun c a => counterAdd c (timeOfDayBucket (hourOf a.timestamp))) []
    let weekly_patterns := (groupBy (fun a => a.activity_type) activities).map
      (fun g => (g.1, g.2.map (fun a => weekdayOf a.timestamp)))
    match weekly_patterns with
    | [] =>
      Except.ok (some
        { most_active_hour := mostCommonKey hour_counts
          most_active_day := mostCommonKey day_counts
          time_of_day_preferences := time_of_day_counts
          activity_type_consistency := []
          hourly_activity_distribution := hour_counts
          daily_activity_distribution := day_counts })
    | _ :: _ => Except.error (pystr "AttributeError")

/-- A project pattern dict as returned by detect_project_based_patterns. -/
structure ProjectDict where
  project_id : PyStr
  total_interactions : ℕ
  total_sessions : ℕ
  total_activities : ℕ
  primary_activity_type : PyStr
  duration_days : ℤ
  active_days : ℕ
  most_common_interaction_types : List (PyStr × ℕ)
deriving DecidableEq

/-- Python min(l, key) for interactions by timestamp (first minimum). -/
def minByTs (l : List UserInteractionRecord) : Option UserInteractionRecord :=
  match l with
  | [] => none
  | x :: xs => some (xs.foldl (fun best i => if i.timestamp < best.timestamp then i else best) x)

/-- Python max(l, key) for interactions by timestamp (first maximum). -/
def maxByTs (l : List UserInteractionRecord) : Option UserInteractionRecord :=
  match l with
  | [] => none
  | x :: xs => some (xs.foldl (fun best i => if best.timestamp < i.timestamp then i else best) x)

/-- Python min(sessions, key=start_time) (first minimum). -/
def minByStart (l : List ActivitySession) : Option ActivitySession :=
  match l with
  | [] => none
  | x :: xs => some (xs.foldl (fun best s => if s.start_time < best.start_time then s else best) x)

/-- Python max(sessions, key=start_time) (first maximum). -/
def maxByStart (l : List ActivitySession) : Option ActivitySession :=
  match l with
  | [] => none
  | x :: xs => some (xs.foldl (fun best s => if best.start_time < s.start_time then s else best) x)

/-- Python max(sessions, key=lambda x: x.end_time or x.start_time). -/
def maxByEndOrStart (l : List ActivitySession) : Option ActivitySession :=
  match l with
  | [] => none
  | x :: xs => some (xs.foldl (fun best s =>
      if (best.end_time.getD best.start_time) < (s.end_time.getD s.start_time) then s
      else best) x)

/-- Counter.most_common(n): stable descending sort by count, first n items. -/
def mostCommon {κ : Type} (counts : List (κ × ℕ)) (n : ℕ) : List (κ × ℕ) :=
  (sortDesc (fun x y => decide (y.2 ≤ x.2)) counts).take n

/-- Descending comparison on total_interactions + total_sessions. -/
def projectSortGe (x y : ProjectDict) : Bool :=
  decide (y.total_interactions + y.total_sessions ≤ x.total_interactions + x.total_sessions)

/-- detect_project_based_patterns (pattern_recognizer.py): joins the episodic
interactions and the tracked sessions by truthy project context; both reads
use the 180-day window of the source.  Python iterates a set of project ids,
whose order is unspecified; first-occurrence order over
interaction keys then session keys is chosen here. -/
def detect_project_based_patterns (now : ℤ) (interactions : List UserInteractionRecord)
    (sessions : List (PyStr × ActivitySession)) (user_id : PyStr) : List ProjectDict :=
  let user_interactions := get_user_interactions now interactions user_id 180
  let user_sessions := get_user_sessions now sessions user_id 180
  let project_interactions := groupBy (fun i => i.project_context)
    (user_interactions.filter (fun i =>
      match i.project_context with
      | some p => !(p.isEmpty)
      | none => false))
  let project_sessions := groupBy (fun s => s.project_context)
    (user_sessions.filter (fun s =>
      match s.project_context with
      | some p => !(p.isEmpty)
      | none => false))
  let project_ids := dedupFirst
    (project_interactions.map (fun g => g.1) ++ project_sessions.map (fun g => g.1))
  let project_patterns := project_ids.filterMap (fun pid =>
    let inters := (pyLookup project_interactions pid).getD []
    let sess := (pyLookup project_sessions pid).getD []
    let total_interactions := inters.length
    let total_sessions := sess.length
    let total_activities := (sess.map (fun s => s.activities.length)).sum
    if 0 < total_interactions + total_sessions then
      let activity_types :=
        sess.foldl (fun c s => s.activities.foldl (fun c2 a => counterAdd c2 a.activity_type) c)
          (inters.foldl (fun c i => counterAdd c i.interaction_type) [])
      let primary := (mostCommonKey activity_types).getD (pystr "unknown")
      let duration_days :=
        match minByTs inters, maxByTs inters with
        | some first, some last => timedeltaDays (last.timestamp - first.timestamp)
        | _, _ =>
          match minByStart sess, maxByEndOrStart sess, maxByStart sess with
          | some first, some lastE, some lastS =>
            timedeltaDays ((lastE.end_time.getD (lastS.start_time)) - first.start_time)
          | _, _, _ => 0
      some { project_id := pid.getD [],
             total_interactions := total_interactions,
             total_sessions := total_sessions,
             total_activities := total_activities,
             primary_activity_type := primary,
             duration_days := duration_days,
             active_days := (dedupFirst (inters.map (fun i => Int.fdiv i.timestamp secondsPerDay))).length,
             most_common_interaction_types := mostCommon activity_types 5 }
    else none)
  sortDesc projectSortGe project_patterns

/-! ## Workflow tracker state and log_activity (workflow_tracker.py) -/

/-- The in-memory and on-disk state of a WorkflowTracker.  Active sessions
map a user id to the id of the session object aliased in the sessions dict;
the persisted fields mirror what _persist last wrote. -/
structure TrackerState where
  activity_logs : List ActivityLog
  sessions : List (PyStr × ActivitySession)
  active_sessions : List (PyStr × PyStr)
  persisted_logs : List ActivityLog
  persisted_sessions : List (PyStr × ActivitySession)
deriving DecidableEq

/-- _persist: rewrite both JSON documents from the in-memory state. -/
def trackerPersist (st : TrackerState) : TrackerState :=
  { st with persisted_logs := st.activity_logs, persisted_sessions := st.sessions }

/-- The activity id f-string
activity_USER_TIMESTAMP_HASH, where HASH models hash(description) % 10000
(string hashing is salted per process, so the residue is passed in). -/
def activityIdFor (user_id : PyStr) (now : ℤ) (descHash : ℕ) : PyStr :=
  pystr "activity_" ++ user_id ++ '_' :: (Nat.toDigits 10 now.toNat) ++
    '_' :: (Nat.toDigits 10 (descHash % 10000))

/-- session.add_activity on the active session object of a user: the object
is aliased from the sessions dict, so the update is visible there. -/
def addToActiveSession (st : TrackerState) (user_id : PyStr) (activity : ActivityLog) :
    TrackerState :=
  match pyLookup st.active_sessions user_id with
  | some sid =>
    { st with sessions := st.sessions.map (fun kv =>
        if kv.1 = sid then (kv.1, { kv.2 with activities := kv.2.activities ++ [activity] })
        else kv) }
  | none => st

/-- log_activity (workflow_tracker.py, lines 256-309).  The method constructs
the ActivityLog, appends it to the global list, appends it to the active
session when one exists, and persists; it then evaluates
self._semantic_memory.UserPreference, but UserPreference is a module-level
class of enhanced_semantic.py and not an attribute of EnhancedSemanticMemory,
so every call raises AttributeError after the state mutations above and never
returns the record. -/
def log_activity (now : ℤ) (descHash : ℕ) (st : TrackerState) (user_id : PyStr)
    (activity_type : PyStr) (description : PyStr) (duration : Option ℚ)
    (success : Bool) (context : List (PyStr × PyStr)) (metadata : List (PyStr × PyStr)) :
    TrackerState × Except PyStr ActivityLog :=
  let activity : ActivityLog :=
    { activity_id := activityIdFor user_id now descHash
      user_id := user_id
      activity_type := activity_type
      description := description
      timestamp := now
      duration := duration
      success := success
      context := context
      metadata := metadata }
  let st1 := { st with activity_logs := st.activity_logs ++ [activity] }
  let st2 := addToActiveSession st1 user_id activity
  let st3 := trackerPersist st2
  (st3, Except.error (pystr "AttributeError"))

/-! ## Memory consolidator (consolidation.py) -/

/-- One entry of a preferences bucket: a value with its confidence. -/
structure PrefEntry where
  value : PyStr
  confidence : ℚ
deriving DecidableEq

/-- The recurring-task summary dict stored in a profile
(consolidate_user_profile builds it from a TaskPattern). -/
structure TaskDict where
  task_name : PyStr
  frequency : ℕ
  avg_interval_days : ℚ
  confidence : ℚ
  schedule_pattern : PyStr
deriving DecidableEq

/-- The habit summary dict stored in a profile. -/
structure HabitDict where
  habit_name : PyStr
  frequency : ℕ
  avg_interval_days : ℚ
  time_of_day : PyStr
  confidence : ℚ
deriving DecidableEq

/-- A metadata value: either an instant (isoformat timestamps are modelled by
the instant itself) or a string. -/
inductive MetaVal where
  | timeVal (t : ℤ)
  | strVal (s : PyStr)
deriving DecidableEq

/-- UserProfile (consolidation.py): the consolidated long-term profile. -/
structure UserProfile where
  user_id : PyStr
  created_at : ℤ
  last_consolidated : ℤ
  preferences : List (PyStr × List PrefEntry)
  habits : List (PyStr × HabitDict)
  recurring_tasks : List (PyStr × TaskDict)
  project_contexts : List (PyStr × PyStr)
  skills : List (PyStr × ℚ)
  goals : List (PyStr × ℚ)
  metadata : List (PyStr × MetaVal)
deriving DecidableEq

/-- The per-user data consolidate_user_profile computes from the pattern
recognizer and the semantic collaborator before the upsert (patterns summary,
bucketed preferences, skills, goals, project info).  It is passed in already
computed: the claims below concern the upsert and batch logic, not the
collaborators. -/
structure DerivedProfileData where
  preferences : List (PyStr × List PrefEntry)
  habits : List (PyStr × HabitDict)
  recurring_tasks : List (PyStr × TaskDict)
  project_contexts : List (PyStr × PyStr)
  skills : List (PyStr × ℚ)
  goals : List (PyStr × ℚ)
deriving DecidableEq

/-- Modelled from the spec: MemoryConsolidationConfig is imported from
agi_core.config but not defined anywhere in the repository; the spec names
its retention_days and summary_retention_days (and the
consolidation_interval_hours used by the service loop). -/
structure MemoryConsolidationConfig where
  consolidation_interval_hours : ℕ
  retention_days : ℕ
  summary_retention_days : ℕ
deriving DecidableEq

/-- consolidate_user_profile (consolidation.py, lines 164-232), after the
collaborator reads (passed in as derived): upsert the profile (reuse the
stored one, stamping last_consolidated, or create a fresh one with
created_at = last_consolidated = now), overwrite the consolidated fields, add
the two metadata keys, and store it back.  Returns the profile and the
updated profile map. -/
def consolidate_user_profile (now : ℤ) (derived : DerivedProfileData)
    (profiles : List (PyStr × UserProfile)) (user_id : PyStr) :
    UserProfile × List (PyStr × UserProfile) :=
  let base :=
    match pyLookup profiles user_id with
    | some profile => { profile with last_consolidated := now }
    | none =>
      { user_id := user_id
        created_at := now
        last_consolidated := now
        preferences := []
        habits := []
        recurring_tasks := []
        project_contexts := []
        skills := []
        goals := []
        metadata := [] }
  let profile :=
    { base with
      preferences := derived.preferences
      habits := derived.habits
      recurring_tasks := derived.recurring_tasks
      project_contexts := derived.project_contexts
      skills := derived.skills
      goals := derived.goals
      metadata :=
        pyDictSet
          (pyDictSet base.metadata (pystr "last_consolidation_run") (MetaVal.timeVal now))
          (pystr "consolidation_source") (MetaVal.strVal (pystr "memory_consolidator")) }
  (profile, pyDictSet profiles user_id profile)

/-- consolidate_all_users (consolidation.py, lines 234-261): consolidate each
collected user id, catching and logging a per-user exception without
aborting the batch.  The per-user call is passed in as a fallible function
(the real consolidate_user_profile can raise inside its collaborator reads). -/
def consolidate_all_users (consolidate : PyStr → Except PyStr UserProfile)
    (user_ids : List PyStr) : List (PyStr × UserProfile) :=
  user_ids.foldl (fun consolidated_profiles uid =>
    match consolidate uid with
    | Except.ok profile => pyDictSet consolidated_profiles uid profile
    | Except.error _ => consolidated_profiles) []

/-- The combined state cleanup_old_memories operates on: the episodic store
fields, the workflow tracker, and the consolidator profile map. -/
structure ConsolidatorState where
  user_interactions : List UserInteractionRecord
  workflow_patterns : List WorkflowPattern
  tracker : TrackerState
  profiles : List (PyStr × UserProfile)
deriving DecidableEq

/-- The keep-list for old interactions: the union of the recurring_tasks of
the episodic workflow patterns (consolidation.py, lines 286-288). -/
def episodicPatternTasks (st : ConsolidatorState) : List PyStr :=
  st.workflow_patterns.flatMap (fun p => p.recurring_tasks)

/-- The keep-list for old activities: the recurring_tasks keys of every
stored profile (consolidation.py, lines 303-306). -/
def profileRecurringKeys (st : ConsolidatorState) : List PyStr :=
  st.profiles.flatMap (fun kv => kv.2.recurring_tasks.map (fun t => t.1))

/-- Whether cleanup removes an interaction: older than the cutoff and with
neither goal_type nor project_context in the episodic pattern keep-list. -/
def interactionRemoved (cutoff : ℤ) (pats : List PyStr) (i : UserInteractionRecord) : Bool :=
  decide (i.timestamp < cutoff) && !(optMem i.goal_type pats) && !(optMem i.project_context pats)

/-- Whether cleanup removes an activity: older than the cutoff and with its
activity_type not among the profile recurring-task keys. -/
def activityRemoved (cutoff : ℤ) (keep : List PyStr) (a : ActivityLog) : Bool :=
  decide (a.timestamp < cutoff) && !(pyContains keep a.activity_type)

/-- cleanup_old_memories (consolidation.py, lines 271-330).  The two removal
loops call list.remove on each offending record; record classes compare by
object identity, so the net effect is the filter below.  The session loop
deletes each old session from the sessions dict and drops the owner from the
active-sessions dict; both stores are then persisted.  Returns the new state
and the cleaned count. -/
def cleanup_old_memories (config : MemoryConsolidationConfig) (now : ℤ)
    (st : ConsolidatorState) : ConsolidatorState × ℕ :=
  let cutoff_date := now - (config.retention_days : ℤ) * secondsPerDay
  let summary_cutoff_date := now - (config.summary_retention_days : ℤ) * secondsPerDay
  let patterns := episodicPatternTasks st
  let removedInteractions := st.user_interactions.filter (interactionRemoved cutoff_date patterns)
  let interactions2 := st.user_interactions.filter
    (fun i => !(interactionRemoved cutoff_date patterns i))
  let recurring_tasks := profileRecurringKeys st
  let removedActivities := st.tracker.activity_logs.filter (activityRemoved cutoff_date recurring_tasks)
  let logs2 := st.tracker.activity_logs.filter
    (fun a => !(activityRemoved cutoff_date recurring_tasks a))
  let old_sessions := (st.tracker.sessions.map (fun kv => kv.2)).filter
    (fun s => decide (s.start_time < summary_cutoff_date))
  let tracker1 := { st.tracker with activity_logs := logs2 }
  let tracker2 := old_sessions.foldl (fun tr s =>
    if hasKey tr.sessions s.session_id then
      { tr with
        sessions := tr.sessions.filter (fun kv => !(decide (kv.1 = s.session_id)))
        active_sessions :=
          if hasKey tr.active_sessions s.user_id then
            tr.active_sessions.filter (fun kv => !(decide (kv.1 = s.user_id)))
          else tr.active_sessions }
    else tr) tracker1
  let st2 :=
    { st with
      user_interactions := interactions2
      tracker := trackerPersist tracker2 }
  (st2, removedInteractions.length + removedActivities.length)

/-! ## Spec-side mirror definitions, for refinement comparisons -/

/-- The confidence formula exactly as the spec states it: base
max(0, min(1, 1 - stddev/mean)), multiplied by 1.5 when the group has at
least 10 occurrences, else by 1.2 at 5 or more occurrences, clamped to 1;
fewer than 2 intervals or a zero mean interval give 0.5.  The boost
thresholds here count occurrences of the group, as the spec words do. -/
def spec_claimed_confidence (sqrtFn : ℚ → ℚ) (occurrences : ℕ) (intervals : List ℚ) : ℚ :=
  if intervals.length < 2 then 1/2
  else
    let m := intervals.sum / (intervals.length : ℚ)
    if m = 0 then 1/2
    else
      let sd := sqrtFn ((intervals.map (fun x => (x - m) ^ 2)).sum / (intervals.length : ℚ))
      let base := max 0 (min 1 (1 - sd / m))
      if 10 ≤ occurrences then min 1 (base * (3/2))
      else if 5 ≤ occurrences then min 1 (base * (6/5))
      else base

/-- The amended confidence formula: base max(0, min(1, 1 - stddev/mean)) with
variance written in the mean-of-squares form, multiplied by 1.2 exactly when
the group has at least 6 occurrences (5 or more intervals); the 1.5 boost of
the spec never applies; fewer than 2 intervals or a zero mean give 0.5. -/
def spec_amended_confidence (sqrtFn : ℚ → ℚ) (intervals : List ℚ) : ℚ :=
  let occurrences := intervals.length + 1
  if intervals.length < 2 then 1/2
  else
    let m := intervals.sum / (intervals.length : ℚ)
    if m = 0 then 1/2
    else
      let meanSq := (intervals.map (fun x => x ^ 2)).sum / (intervals.length : ℚ)
      let sd := sqrtFn (meanSq - m ^ 2)
      let base := max 0 (min 1 (1 - sd / m))
      if 6 ≤ occurrences then min 1 (base * (6/5))
      else base

/-- detect_recurring_tasks as the spec describes its default lookback: a
90-day window in place of the 180-day literal of the source. -/
def spec_detect_recurring_tasks_90 (sqrtFn : ℚ → ℚ) (now : ℤ) (logs : List ActivityLog)
    (user_id : PyStr) (min_frequency : ℕ) : List TaskPattern :=
  let activities := get_user_activities now logs user_id 90
  if activities = [] then []
  else
    let activity_groups := groupBy activity_signature activities
    let recurring_tasks := activity_groups.filterMap (fun g =>
      if min_frequency ≤ g.2.length then
        let sorted_activities := sortByTimestamp g.2
        let intervals := (dayIntervals sorted_activities).map (fun i => (i : ℚ))
        let avg_interval := if intervals = [] then 0 else intervals.sum / (intervals.length : ℚ)
        let schedule_pattern := determine_schedule_pattern intervals
        let confidence := calculate_pattern_confidence sqrtFn intervals
        let split := (splitFirst ':' g.1).getD (g.1, [])
        some { task_name := split.1
               frequency := g.2.length
               avg_interval_days := avg_interval
               context := parse_context_signature split.2
               confidence := confidence
               schedule_pattern := schedule_pattern }
      else none)
    sortDesc taskSortGe recurring_tasks

/-! ## Association-list and counter lemmas -/

theorem pyLookup_append {κ β : Type} [DecidableEq κ] (d e : List (κ × β)) (q : κ) :
    pyLookup (d ++ e) q =
      match pyLookup d q with
      | some v => some v
      | none => pyLookup e q := by
  induction d with
  | nil => simp [pyLookup]
  | cons kv rest ih =>
    by_cases h : kv.1 = q
    · simp [pyLookup, h]
    · simp [pyLookup, h, ih]

theorem pyLookup_eq_none_of_not_hasKey {κ β : Type} [DecidableEq κ]
    (d : List (κ × β)) (k : κ) (h : hasKey d k = false) : pyLookup d k = none := by
  induction d with
  | nil => rfl
  | cons kv rest ih =>
    rw [hasKey, List.any_cons, Bool.or_eq_false_iff] at h
    obtain ⟨h1, h2⟩ := h
    have h1' : kv.1 ≠ k := by simpa using h1
    simp [pyLookup, h1', ih h2]

theorem hasKey_append {κ β : Type} [DecidableEq κ] (d e : List (κ × β)) (k : κ) :
    hasKey (d ++ e) k = (hasKey d k || hasKey e k) := by
  simp [hasKey, List.any_append]

theorem pyLookup_isSome_of_hasKey {κ β : Type} [DecidableEq κ]
    (d : List (κ × β)) (k : κ) (h : hasKey d k = true) :
    ∃ v, pyLookup d k = some v := by
  induction d with
  | nil => simp [hasKey] at h
  | cons kv rest ih =>
    by_cases h1 : kv.1 = k
    · exact ⟨kv.2, by simp [pyLookup, h1]⟩
    · rw [hasKey, List.any_cons, Bool.or_eq_true_iff] at h
      rcases h with h | h
      · exact absurd (by simpa using h) h1
      · obtain ⟨v, hv⟩ := ih h
        exact ⟨v, by simp [pyLookup, h1, hv]⟩

theorem counterGet_counterAdd {κ : Type} [DecidableEq κ] (d : List (κ × ℕ)) (k q : κ) :
    counterGet (counterAdd d k) q =
      if q = k then counterGet d q + 1 else counterGet d q := by
  by_cases hk : hasKey d k
  · have hmap : ∀ (d0 : List (κ × ℕ)),
        pyLookup (d0.map (fun kv => if kv.1 = k then (kv.1, kv.2 + 1) else kv)) q =
          (pyLookup d0 q).map (fun v => if q = k then v + 1 else v) := by
      intro d0
      induction d0 with
      | nil => simp [pyLookup]
      | cons kv rest ih =>
        by_cases h2 : kv.1 = k <;> by_cases h1 : kv.1 = q <;>
          simp only [pyLookup, h2, h1, if_true, if_false, ih] <;> simp_all
    simp only [counterAdd, hk, if_true, counterGet, hmap d]
    cases hq : pyLookup d q with
    | none =>
      have hqk : ¬q = k := by
        intro hh
        obtain ⟨v, hv⟩ := pyLookup_isSome_of_hasKey d k hk
        rw [hh, hv] at hq
        exact Option.noConfusion hq
      simp [counterGet, hq, hqk]
    | some v => by_cases h : q = k <;> simp [counterGet, hq, h]
  · simp only [counterAdd, Bool.not_eq_true] at hk ⊢
    simp only [hk, Bool.false_eq_true, if_false, counterGet, pyLookup_append]
    by_cases h : q = k
    · rw [h, pyLookup_eq_none_of_not_hasKey d k hk]
      simp [pyLookup, h]
    · cases hq : pyLookup d q with
      | none => simp [pyLookup, Ne.symm h, h]
      | some v => simp [h]

theorem countOcc_cons {α : Type} [DecidableEq α] (q x : α) (l : List α) :
    countOcc q (x :: l) = (if q = x then 1 else 0) + countOcc q l := by
  by_cases h : x = q
  · subst h
    simp only [countOcc]
    rw [List.filter_cons_of_pos (by simp)]
    simp [Nat.add_comm]
  · simp [countOcc, List.filter, h, Ne.symm h]

theorem counterGet_foldl_counterAdd {κ : Type} [DecidableEq κ] (xs : List κ)
    (d : List (κ × ℕ)) (q : κ) :
    counterGet (xs.foldl counterAdd d) q = counterGet d q + countOcc q xs := by
  induction xs generalizing d with
  | nil => simp [countOcc]
  | cons x rest ih =>
    simp only [List.foldl_cons, ih, counterGet_counterAdd, countOcc_cons]
    by_cases h : q = x
    · simp only [h, if_true]
      omega
    · simp only [h, if_false]
      omega

theorem counterGet_patternCounts {α : Type} [DecidableEq α]
    (seqs : List (List α)) (p : List α) :
    counterGet (patternCounts seqs) p =
      (seqs.map (fun s => countOcc p (subsequencesOf s))).sum := by
  have aux : ∀ (ss : List (List α)) (d : List (List α × ℕ)),
      counterGet (ss.foldl (fun counts sequence =>
        (subsequencesOf sequence).foldl (fun c sub => counterAdd c sub) counts) d) p =
        counterGet d p + (ss.map (fun s => countOcc p (subsequencesOf s))).sum := by
    intro ss
    induction ss with
    | nil => intro d; simp
    | cons s rest ih =>
      intro d
      simp only [List.foldl_cons, ih, counterGet_foldl_counterAdd, List.map_cons,
        List.sum_cons]
      omega
  simpa [patternCounts, counterGet, pyLookup] using aux seqs []

/-- C7: for a session with activity sequence [A, B, C], the workflow-pattern
miner generates exactly the contiguous subsequences of length at least two,
namely (A,B), (A,B,C) and (B,C); and the counted frequency of any
subsequence equals the sum of its occurrence counts over all sessions. -/
theorem C7_workflow_subsequences (A B C : PyStr × PyStr)
    (seqs : List (List (PyStr × PyStr))) (p : List (PyStr × PyStr)) :
    subsequencesOf [A, B, C] = [[A, B], [A, B, C], [B, C]] ∧
    counterGet (patternCounts seqs) p =
      (seqs.map (fun s => countOcc p (subsequencesOf s))).sum :=
  ⟨rfl, counterGet_patternCounts seqs p⟩

/-- C2: log_activity does append the new ActivityRecord to the global
activity list, appends it to the caller's open session when one exists, and
persists synchronously — but it never completes normally: evaluating
self._semantic_memory.UserPreference raises AttributeError on every call
(UserPreference is a module-level class of enhanced_semantic.py, not an
attribute of EnhancedSemanticMemory), so the record is not returned. -/
theorem C2_log_activity_always_raises (now : ℤ) (descHash : ℕ) (st : TrackerState)
    (user_id activity_type description : PyStr) (duration : Option ℚ) (success : Bool)
    (context metadata : List (PyStr × PyStr)) :
    (log_activity now descHash st user_id activity_type description duration success
        context metadata).2 = Except.error (pystr "AttributeError") ∧
    (log_activity now descHash st user_id activity_type description duration success
        context metadata).1.activity_logs = st.activity_logs ++
      [{ activity_id := activityIdFor user_id now descHash
         user_id := user_id
         activity_type := activity_type
         description := description
         timestamp := now
         duration := duration
         success := success
         context := context
         metadata := metadata }] ∧
    (log_activity now descHash st user_id activity_type description duration success
        context metadata).1.persisted_logs =
      (log_activity now descHash st user_id activity_type description duration success
        context metadata).1.activity_logs := by
  refine ⟨rfl, ?_, rfl⟩
  simp only [log_activity, addToActiveSession, trackerPersist]
  rcases pyLookup st.active_sessions user_id with _ | sid <;> rfl

/-! ## consolidate_all_users (C8) -/

/-- Whether an Except carries a success value. -/
def exceptIsOk {ε α : Type} : Except ε α → Bool
  | Except.ok _ => true
  | Except.error _ => false

theorem consolidate_all_users_eq_filterMap (f : PyStr → Except PyStr UserProfile)
    (ids : List PyStr) (hnd : ids.Nodup) :
    consolidate_all_users f ids = ids.filterMap (fun uid =>
      match f uid with
      | Except.ok p => some (uid, p)
      | Except.error _ => none) := by
  have aux : ∀ (l : List PyStr) (acc : List (PyStr × UserProfile)),
      l.Nodup → (∀ uid ∈ l, hasKey acc uid = false) →
      l.foldl (fun consolidated_profiles uid =>
        match f uid with
        | Except.ok profile => pyDictSet consolidated_profiles uid profile
        | Except.error _ => consolidated_profiles) acc =
      acc ++ l.filterMap (fun uid =>
        match f uid with
        | Except.ok p => some (uid, p)
        | Except.error _ => none) := by
    intro l
    induction l with
    | nil => intro acc _ _; simp
    | cons uid rest ih =>
      intro acc hnd2 hkeys
      rcases List.nodup_cons.mp hnd2 with ⟨hu, hrest⟩
      cases hf : f uid with
      | ok p =>
        have hset : pyDictSet acc uid p = acc ++ [(uid, p)] := by
          simp only [pyDictSet, hkeys uid (by simp), Bool.false_eq_true, if_false]
        simp only [List.foldl_cons, hf, hset]
        rw [ih (acc ++ [(uid, p)]) hrest]
        · simp [List.filterMap_cons, hf]
        · intro v hv
          rw [hasKey_append, Bool.or_eq_false_iff]
          refine ⟨hkeys v (by simp [hv]), ?_⟩
          have hvu : ¬uid = v := fun hh => hu (hh ▸ hv)
          simp [hasKey, hvu]
      | error e =>
        simp only [List.foldl_cons, hf]
        rw [ih acc hrest (fun v hv => hkeys v (by simp [hv]))]
        simp [List.filterMap_cons, hf]
  simpa [consolidate_all_users] using aux ids [] hnd (by simp [hasKey])

/-- C8: when consolidate_user_profile fails for exactly one user of the
batch, consolidate_all_users catches the exception and still returns the
successfully consolidated profile of every other user, and no profile for
the failing user.  The per-user consolidation is the fallible function f. -/
theorem C8_partial_failure_isolation (f : PyStr → Except PyStr UserProfile)
    (ids : List PyStr) (u : PyStr) (e : PyStr) (hnd : ids.Nodup)
    (hu : f u = Except.error e)
    (_hothers : ∀ v ∈ ids, v ≠ u → exceptIsOk (f v) = true) :
    (∀ v ∈ ids, v ≠ u → ∀ p, f v = Except.ok p →
      (v, p) ∈ consolidate_all_users f ids) ∧
    (∀ p, (u, p) ∉ consolidate_all_users f ids) := by
  rw [consolidate_all_users_eq_filterMap f ids hnd]
  constructor
  · intro v hv _ p hp
    exact List.mem_filterMap.mpr ⟨v, hv, by simp [hp]⟩
  · intro p hmem
    rcases List.mem_filterMap.mp hmem with ⟨w, hw, hweq⟩
    cases hfw : f w with
    | ok q =>
      rw [hfw] at hweq
      simp only [Option.some.injEq, Prod.mk.injEq] at hweq
      rw [hweq.1] at hfw
      rw [hu] at hfw
      exact Except.noConfusion hfw
    | error e2 => rw [hfw] at hweq; exact Option.noConfusion hweq

/-- A minimal profile used by the C8 witness instantiation. -/
def c8Profile (uid : PyStr) : UserProfile :=
  { user_id := uid, created_at := 0, last_consolidated := 0, preferences := []
    habits := [], recurring_tasks := [], project_contexts := [], skills := []
    goals := [], metadata := [] }

/-- The per-user consolidation of the C8 witness: one user raises. -/
def c8Consolidate (uid : PyStr) : Except PyStr UserProfile :=
  if uid = pystr "bad" then Except.error (pystr "boom") else Except.ok (c8Profile uid)

/-- Witness for C8 at a concrete batch of three users. -/
theorem C8_witness :
    (pystr "alice", c8Profile (pystr "alice")) ∈
      consolidate_all_users c8Consolidate [pystr "alice", pystr "bad", pystr "bob"] ∧
    ∀ p, (pystr "bad", p) ∉
      consolidate_all_users c8Consolidate [pystr "alice", pystr "bad", pystr "bob"] := by
  have h := C8_partial_failure_isolation c8Consolidate
    [pystr "alice", pystr "bad", pystr "bob"] (pystr "bad") (pystr "boom")
    (by decide) rfl (by decide)
  exact ⟨h.1 (pystr "alice") (by decide) (by decide) (c8Profile (pystr "alice")) rfl, h.2⟩

/-- C10: consolidating a user who already has a stored profile keeps the
profile user_id and created_at and stamps last_consolidated with the
consolidation time; a fresh profile with created_at = last_consolidated = now
arises exactly when no profile is stored for the user. -/
theorem C10_profile_upsert_frame (now : ℤ) (derived : DerivedProfileData)
    (profiles : List (PyStr × UserProfile)) (uid : PyStr) :
    (∀ p, pyLookup profiles uid = some p →
      (consolidate_user_profile now derived profiles uid).1.user_id = p.user_id ∧
      (consolidate_user_profile now derived profiles uid).1.created_at = p.created_at ∧
      (consolidate_user_profile now derived profiles uid).1.last_consolidated = now) ∧
    (pyLookup profiles uid = none →
      (consolidate_user_profile now derived profiles uid).1.user_id = uid ∧
      (consolidate_user_profile now derived profiles uid).1.created_at = now ∧
      (consolidate_user_profile now derived profiles uid).1.last_consolidated = now) := by
  constructor
  · intro p hp
    simp [consolidate_user_profile, hp]
  · intro hp
    simp [consolidate_user_profile, hp]

/-- The stored profile of the C10 witness. -/
def c10Stored : UserProfile :=
  { user_id := pystr "u", created_at := 5, last_consolidated := 6, preferences := []
    habits := [], recurring_tasks := [], project_contexts := [], skills := []
    goals := [], metadata := [] }

/-- Empty derived data for the C10 witness. -/
def c10Derived : DerivedProfileData :=
  { preferences := [], habits := [], recurring_tasks := [], project_contexts := []
    skills := [], goals := [] }

/-- Witness for C10 at a concrete stored profile. -/
theorem C10_witness :
    (consolidate_user_profile 42 c10Derived [(pystr "u", c10Stored)] (pystr "u")).1.user_id =
        pystr "u" ∧
    (consolidate_user_profile 42 c10Derived [(pystr "u", c10Stored)] (pystr "u")).1.created_at = 5 ∧
    (consolidate_user_profile 42 c10Derived [(pystr "u", c10Stored)] (pystr "u")).1.last_consolidated =
        42 :=
  (C10_profile_upsert_frame 42 c10Derived [(pystr "u", c10Stored)] (pystr "u")).1
    c10Stored (by decide)

/-! ## cleanup_old_memories (C1) -/

theorem foldl_preserving {σ α β : Type} (f : σ → α → σ) (proj : σ → β)
    (h : ∀ acc a, proj (f acc a) = proj acc) :
    ∀ (l : List α) (acc : σ), proj (l.foldl f acc) = proj acc := by
  intro l
  induction l with
  | nil => intro acc; rfl
  | cons x rest ih => intro acc; rw [List.foldl_cons, ih, h]

theorem pyContains_of_mem {l : List PyStr} {x : PyStr} (h : x ∈ l) :
    pyContains l x = true := by
  simp only [pyContains, List.any_eq_true]
  exact ⟨x, h, by simp⟩

theorem cleanup_activity_logs (config : MemoryConsolidationConfig) (now : ℤ)
    (st : ConsolidatorState) :
    (cleanup_old_memories config now st).1.tracker.activity_logs =
      st.tracker.activity_logs.filter (fun a =>
        !(activityRemoved (now - (config.retention_days : ℤ) * secondsPerDay)
          (profileRecurringKeys st) a)) := by
  simp only [cleanup_old_memories, trackerPersist]
  exact foldl_preserving _ (fun tr : TrackerState => tr.activity_logs)
    (by intro acc a; dsimp only; split <;> rfl) _ _

theorem cleanup_interactions (config : MemoryConsolidationConfig) (now : ℤ)
    (st : ConsolidatorState) :
    (cleanup_old_memories config now st).1.user_interactions =
      st.user_interactions.filter (fun i =>
        !(interactionRemoved (now - (config.retention_days : ℤ) * secondsPerDay)
          (episodicPatternTasks st) i)) := rfl

/-- C1 (amended): cleanup_old_memories never deletes an activity whose
activity_type appears among the recurring_tasks keys of any stored
UserProfile, even when older than the retention cutoff; an interaction,
however, is protected only when its goal_type or project_context appears in
the recurring_tasks of an episodic workflow-pattern record, not by the
profiles recurring_tasks keys. -/
theorem C1_amended_cleanup_keep_lists (config : MemoryConsolidationConfig)
    (now : ℤ) (st : ConsolidatorState) (a : ActivityLog) (i : UserInteractionRecord) :
    (a ∈ st.tracker.activity_logs → a.activity_type ∈ profileRecurringKeys st →
      a ∈ (cleanup_old_memories config now st).1.tracker.activity_logs) ∧
    (i ∈ st.user_interactions →
      (optMem i.goal_type (episodicPatternTasks st) = true ∨
        optMem i.project_context (episodicPatternTasks st) = true) →
      i ∈ (cleanup_old_memories config now st).1.user_interactions) := by
  constructor
  · intro ha hkeep
    rw [cleanup_activity_logs]
    refine List.mem_filter.mpr ⟨ha, ?_⟩
    simp [activityRemoved, pyContains_of_mem hkeep]
  · intro hi hkeep
    rw [cleanup_interactions]
    refine List.mem_filter.mpr ⟨hi, ?_⟩
    rcases hkeep with hk | hk <;> simp [interactionRemoved, hk]

/-- The old interaction of the C1 counterexample: its goal_type is a profile
recurring-task key, yet cleanup deletes it. -/
def c1Inter : UserInteractionRecord :=
  { user_id := pystr "u", interaction_type := pystr "chat", content := pystr "c"
    timestamp := 0, project_context := none, goal_type := some (pystr "deploy") }

/-- The recurring-task summary stored in the C1 profile. -/
def c1Task : TaskDict :=
  { task_name := pystr "deploy", frequency := 4, avg_interval_days := 7
    confidence := 1, schedule_pattern := pystr "weekly" }

/-- The stored profile of the C1 counterexample, holding "deploy" among its
recurring_tasks keys. -/
def c1Profile : UserProfile :=
  { user_id := pystr "u", created_at := 0, last_consolidated := 0, preferences := []
    habits := [], recurring_tasks := [(pystr "deploy", c1Task)], project_contexts := []
    skills := [], goals := [], metadata := [] }

/-- The empty tracker of the C1 counterexample. -/
def c1Tracker : TrackerState :=
  { activity_logs := [], sessions := [], active_sessions := []
    persisted_logs := [], persisted_sessions := [] }

/-- The consolidator state of the C1 counterexample: one old interaction, no
episodic workflow patterns, one profile whose recurring_tasks keys contain
the interaction goal type. -/
def c1State : ConsolidatorState :=
  { user_interactions := [c1Inter], workflow_patterns := []
    tracker := c1Tracker, profiles := [(pystr "u", c1Profile)] }

/-- The config of the C1 counterexample. -/
def c1Config : MemoryConsolidationConfig :=
  { consolidation_interval_hours := 24, retention_days := 30, summary_retention_days := 90 }

/-- Counterexample to C1 as stated: an interaction older than retention_days
whose goal_type "deploy" is among a stored profile recurring_tasks keys is
nevertheless deleted by cleanup_old_memories (the interaction keep-list is
built from episodic workflow patterns, not from profiles). -/
theorem C1_counterexample :
    pystr "deploy" ∈ profileRecurringKeys c1State ∧
    c1Inter.goal_type = some (pystr "deploy") ∧
    c1Inter ∈ c1State.user_interactions ∧
    c1Inter.timestamp < (100 * secondsPerDay) - (c1Config.retention_days : ℤ) * secondsPerDay ∧
    c1Inter ∉ (cleanup_old_memories c1Config (100 * secondsPerDay) c1State).1.user_interactions := by
  decide

/-- The protected old activity of the C1 witness. -/
def c1wAct : ActivityLog :=
  { activity_id := pystr "a1", user_id := pystr "u", activity_type := pystr "deploy"
    description := pystr "d", timestamp := 0, duration := none, success := true
    context := [], metadata := [] }

/-- The protected old interaction of the C1 witness. -/
def c1wInter : UserInteractionRecord :=
  { user_id := pystr "u", interaction_type := pystr "chat", content := pystr "c"
    timestamp := 0, project_context := none, goal_type := some (pystr "x") }

/-- An episodic workflow pattern whose recurring_tasks protect c1wInter. -/
def c1wPattern : WorkflowPattern :=
  { pattern_id := pystr "goal_u_x", user_id := pystr "u", pattern_type := pystr "goal_type"
    frequency := 3, last_occurred := 0, recurring_tasks := [pystr "x"], context := [] }

/-- The consolidator state of the C1 witness. -/
def c1wState : ConsolidatorState :=
  { user_interactions := [c1wInter], workflow_patterns := [c1wPattern]
    tracker := { activity_logs := [c1wAct], sessions := [], active_sessions := []
                 persisted_logs := [], persisted_sessions := [] }
    profiles := [(pystr "u", c1Profile)] }

/-- Witness for the amended C1 at a concrete state: a protected old activity
survives cleanup, and an interaction protected by an episodic workflow
pattern survives cleanup. -/
theorem C1_witness :
    c1wAct ∈ c1wState.tracker.activity_logs ∧
    c1wAct.activity_type ∈ profileRecurringKeys c1wState ∧
    c1wAct ∈ (cleanup_old_memories c1Config (100 * secondsPerDay) c1wState).1.tracker.activity_logs ∧
    c1wInter ∈ (cleanup_old_memories c1Config (100 * secondsPerDay) c1wState).1.user_interactions :=
  ⟨by decide, by decide,
    (C1_amended_cleanup_keep_lists c1Config (100 * secondsPerDay) c1wState c1wAct c1wInter).1
      (by decide) (by decide),
    (C1_amended_cleanup_keep_lists c1Config (100 * secondsPerDay) c1wState c1wAct c1wInter).2
      (by decide) (Or.inl (by decide))⟩

/-! ## Lookback windows (C5) -/

theorem get_user_activities_append_old (now : ℤ) (logs : List ActivityLog)
    (uid : PyStr) (d : ℕ) (a : ActivityLog)
    (h : a.timestamp < now - (d : ℤ) * secondsPerDay) :
    get_user_activities now (logs ++ [a]) uid d = get_user_activities now logs uid d := by
  simp only [get_user_activities, List.filter_append, List.filter_cons, List.filter_nil]
  have hfalse : decide (a.user_id = uid ∧ now - (d : ℤ) * secondsPerDay ≤ a.timestamp) = false := by
    simp only [decide_eq_false_iff_not]
    rintro ⟨-, hle⟩
    omega
  rw [hfalse]
  simp

theorem get_user_sessions_append_old (now : ℤ)
    (sessions : List (PyStr × ActivitySession)) (uid : PyStr) (d : ℕ)
    (sid : PyStr) (s : ActivitySession)
    (h : s.start_time < now - (d : ℤ) * secondsPerDay) :
    get_user_sessions now (sessions ++ [(sid, s)]) uid d =
      get_user_sessions now sessions uid d := by
  simp only [get_user_sessions, List.map_append, List.map_cons, List.map_nil,
    List.filter_append, List.filter_cons, List.filter_nil]
  have hfalse : decide (s.user_id = uid ∧ now - (d : ℤ) * secondsPerDay ≤ s.start_time) = false := by
    simp only [decide_eq_false_iff_not]
    rintro ⟨-, hle⟩
    omega
  rw [hfalse]
  simp

theorem get_user_interactions_append_old (now : ℤ)
    (interactions : List UserInteractionRecord) (uid : PyStr) (d : ℕ)
    (i : UserInteractionRecord)
    (h : i.timestamp < now - (d : ℤ) * secondsPerDay) :
    get_user_interactions now (interactions ++ [i]) uid d =
      get_user_interactions now interactions uid d := by
  simp only [get_user_interactions, List.filter_append, List.filter_cons, List.filter_nil]
  have hfalse : decide (i.user_id = uid ∧ now - (d : ℤ) * secondsPerDay ≤ i.timestamp) = false := by
    simp only [decide_eq_false_iff_not]
    rintro ⟨-, hle⟩
    omega
  rw [hfalse]
  simp

/-- C5 (amended): the lookback windows actually used by the detectors are
180 days for detect_recurring_tasks and detect_workflow_patterns (not 90),
180 days for detect_user_habits and detect_project_based_patterns, and
365 days for detect_time_based_patterns: a record strictly older than the
respective cutoff never influences the detector output. -/
theorem C5_amended_default_windows :
    (∀ (sqrtFn : ℚ → ℚ) (now : ℤ) (logs : List ActivityLog) (uid : PyStr)
        (mf : ℕ) (a : ActivityLog), a.timestamp < now - 180 * secondsPerDay →
      detect_recurring_tasks sqrtFn now (logs ++ [a]) uid mf =
        detect_recurring_tasks sqrtFn now logs uid mf) ∧
    (∀ (sqrtFn : ℚ → ℚ) (now : ℤ) (logs : List ActivityLog) (uid : PyStr)
        (mf : ℕ) (a : ActivityLog), a.timestamp < now - 180 * secondsPerDay →
      detect_user_habits sqrtFn now (logs ++ [a]) uid mf =
        detect_user_habits sqrtFn now logs uid mf) ∧
    (∀ (patternHash : List (PyStr × PyStr) → ℕ) (now : ℤ)
        (sessions : List (PyStr × ActivitySession)) (uid : PyStr) (mf : ℕ)
        (sid : PyStr) (s : ActivitySession), s.start_time < now - 180 * secondsPerDay →
      detect_workflow_patterns patternHash now (sessions ++ [(sid, s)]) uid mf =
        detect_workflow_patterns patternHash now sessions uid mf) ∧
    (∀ (now : ℤ) (logs : List ActivityLog) (uid : PyStr) (a : ActivityLog),
        a.timestamp < now - 365 * secondsPerDay →
      detect_time_based_patterns now (logs ++ [a]) uid =
        detect_time_based_patterns now logs uid) ∧
    (∀ (now : ℤ) (interactions : List UserInteractionRecord)
        (sessions : List (PyStr × ActivitySession)) (uid : PyStr)
        (i : UserInteractionRecord) (sid : PyStr) (s : ActivitySession),
        i.timestamp < now - 180 * secondsPerDay →
        s.start_time < now - 180 * secondsPerDay →
      detect_project_based_patterns now (interactions ++ [i]) (sessions ++ [(sid, s)]) uid =
        detect_project_based_patterns now interactions sessions uid) := by
  refine ⟨?_, ?_, ?_, ?_, ?_⟩
  · intro sqrtFn now logs uid mf a h
    unfold detect_recurring_tasks
    rw [get_user_activities_append_old now logs uid 180 a (by push_cast; omega)]
  · intro sqrtFn now logs uid mf a h
    unfold detect_user_habits
    rw [get_user_activities_append_old now logs uid 180 a (by push_cast; omega)]
  · intro patternHash now sessions uid mf sid s h
    unfold detect_workflow_patterns
    rw [get_user_sessions_append_old now sessions uid 180 sid s (by push_cast; omega)]
  · intro now logs uid a h
    unfold detect_time_based_patterns
    rw [get_user_activities_append_old now logs uid 365 a (by push_cast; omega)]
  · intro now interactions sessions uid i sid s hi hs
    unfold detect_project_based_patterns
    rw [get_user_interactions_append_old now interactions uid 180 i (by push_cast; omega),
      get_user_sessions_append_old now sessions uid 180 sid s (by push_cast; omega)]

/-- An activity of the C5 instantiations. -/
def c5Act (day : ℤ) : ActivityLog :=
  { activity_id := pystr "a", user_id := pystr "u", activity_type := pystr "deploy"
    description := pystr "d", timestamp := day * secondsPerDay, duration := none
    success := true, context := [], metadata := [] }

/-- Four weekly deploys on days 0, 7, 14 and 21, observed from day 150: all
older than 90 days, all within 180 days. -/
def c5Acts : List ActivityLog := [c5Act 0, c5Act 7, c5Act 14, c5Act 21]

/-- Counterexample to C5 as stated: with the observation instant on day 150,
the four deploys are between 129 and 150 days old; a 90-day default window
for detect_recurring_tasks would see no activity and return an empty list,
but the source (180-day window) returns a pattern. -/
theorem C5_counterexample :
    detect_recurring_tasks ratSqrt (150 * secondsPerDay) c5Acts (pystr "u") 2 ≠
      spec_detect_recurring_tasks_90 ratSqrt (150 * secondsPerDay) c5Acts (pystr "u") 2 := by
  have hL : (detect_recurring_tasks ratSqrt (150 * secondsPerDay) c5Acts (pystr "u") 2).length
      = 1 := by rfl
  have hR : (spec_detect_recurring_tasks_90 ratSqrt (150 * secondsPerDay) c5Acts
      (pystr "u") 2).length = 0 := by rfl
  intro h
  rw [h, hR] at hL
  exact Nat.noConfusion hL

/-- Witness for the amended C5: a deploy 200 days old does not change the
output of detect_recurring_tasks on the day-150 state. -/
theorem C5_witness :
    detect_recurring_tasks ratSqrt (150 * secondsPerDay) (c5Acts ++ [c5Act (-50)])
        (pystr "u") 2 =
      detect_recurring_tasks ratSqrt (150 * secondsPerDay) c5Acts (pystr "u") 2 :=
  C5_amended_default_windows.1 ratSqrt (150 * secondsPerDay) c5Acts (pystr "u") 2
    (c5Act (-50)) (by decide)

/-! ## detect_time_based_patterns raises (C4) -/

theorem groupBy_ne_nil {κ α : Type} [DecidableEq κ] (key : α → κ) (l : List α)
    (h : l ≠ []) : groupBy key l ≠ [] := by
  have step_ne : ∀ (acc : List (κ × List α)) (x : α), acc ≠ [] →
      (if acc.any (fun g => g.1 = key x) then
        acc.map (fun g => if g.1 = key x then (g.1, g.2 ++ [x]) else g)
      else acc ++ [(key x, [x])]) ≠ [] := by
    intro acc x hacc
    split
    · simpa using hacc
    · simp
  have aux : ∀ (rest : List α) (acc : List (κ × List α)), acc ≠ [] →
      rest.foldl (fun groups a =>
        let k := key a
        if groups.any (fun g => g.1 = k) then
          groups.map (fun g => if g.1 = k then (g.1, g.2 ++ [a]) else g)
        else groups ++ [(k, [a])]) acc ≠ [] := by
    intro rest
    induction rest with
    | nil => intro acc hacc; simpa using hacc
    | cons y ys ih =>
      intro acc hacc
      rw [List.foldl_cons]
      exact ih _ (step_ne acc y hacc)
  cases l with
  | nil => exact absurd rfl h
  | cons x rest =>
    unfold groupBy
    rw [List.foldl_cons]
    exact aux rest _ (by simp)

/-- C4: detect_time_based_patterns never returns the consistency map the
spec describes: for every non-empty windowed activity list, the per-type
consistency loop evaluates prob.log2() (and would evaluate len.log2()),
methods that Python floats and ints do not have, so the call raises
AttributeError instead of returning. -/
theorem C4_time_based_always_raises (now : ℤ) (logs : List ActivityLog) (uid : PyStr)
    (h : get_user_activities now logs uid 365 ≠ []) :
    detect_time_based_patterns now logs uid = Except.error (pystr "AttributeError") := by
  simp only [detect_time_based_patterns]
  rw [if_neg h]
  rcases hgp : groupBy (fun a => a.activity_type) (get_user_activities now logs uid 365) with
    _ | ⟨g, rest⟩
  · exact absurd hgp (groupBy_ne_nil _ _ h)
  · rw [hgp]
    rfl

/-- The single activity of the C4 witness. -/
def c4Act : ActivityLog :=
  { activity_id := pystr "a", user_id := pystr "u", activity_type := pystr "deploy"
    description := pystr "d", timestamp := 3 * secondsPerDay, duration := none
    success := true, context := [], metadata := [] }

/-- Witness for C4: one activity within the 365-day window makes
detect_time_based_patterns raise AttributeError. -/
theorem C4_witness :
    detect_time_based_patterns (10 * secondsPerDay) [c4Act] (pystr "u") =
      Except.error (pystr "AttributeError") :=
  C4_time_based_always_raises (10 * secondsPerDay) [c4Act] (pystr "u") (by decide)

/-! ## Pattern confidence (C3) -/

theorem sum_sq_sub (l : List ℚ) (m : ℚ) :
    (l.map (fun x => (x - m) ^ 2)).sum =
      (l.map (fun x => x ^ 2)).sum - 2 * m * l.sum + (l.length : ℚ) * m ^ 2 := by
  induction l with
  | nil => simp
  | cons x xs ih =>
    simp only [List.map_cons, List.sum_cons, ih, List.length_cons]
    push_cast
    ring

/-- C3 (amended): the pattern confidence of _calculate_pattern_confidence is
max(0, min(1, 1 - stddev/mean)) — with the variance equal to the mean of the
squares minus the squared mean — multiplied by 1.2 exactly when the group has
at least 6 occurrences (5 or more intervals) and clamped to 1; the 1.5 boost
the spec promises at 10 or more occurrences never applies, because the
if/elif chain tests the 5-interval threshold first; fewer than 2 intervals,
or a zero mean interval, give 0.5.  This holds for every square-root
function, in particular the one the floating-point runtime implements. -/
theorem C3_amended_confidence (sqrtFn : ℚ → ℚ) (intervals : List ℚ) :
    calculate_pattern_confidence sqrtFn intervals = spec_amended_confidence sqrtFn intervals := by
  unfold calculate_pattern_confidence spec_amended_confidence
  by_cases h2 : intervals.length < 2
  · simp [h2]
  · simp only [h2, if_false]
    by_cases hz : intervals.sum / (intervals.length : ℚ) = 0
    · simp [hz]
    · simp only [hz, if_false]
      have hn0 : (intervals.length : ℚ) ≠ 0 := by
        have : 2 ≤ intervals.length := Nat.le_of_not_lt h2
        positivity
      have hvar : (intervals.map (fun x => (x - intervals.sum / (intervals.length : ℚ)) ^ 2)).sum /
            (intervals.length : ℚ) =
          (intervals.map (fun x => x ^ 2)).sum / (intervals.length : ℚ) -
            (intervals.sum / (intervals.length : ℚ)) ^ 2 := by
        rw [sum_sq_sub]
        field_simp
        ring
      rw [hvar]
      by_cases h5 : 5 ≤ intervals.length
      · have h6 : 6 ≤ intervals.length + 1 := by omega
        simp [h5, h6]
      · have h10 : ¬10 ≤ intervals.length := by omega
        have h6 : ¬6 ≤ intervals.length + 1 := by omega
        simp [h5, h10, h6]

theorem ratSqrt_zero : ratSqrt 0 = 0 := by
  unfold ratSqrt
  norm_num

theorem ratSqrt_sixteen : ratSqrt 16 = 4 := by
  unfold ratSqrt
  have h16 : (16 : ℚ).num.toNat = 16 := by
    have hq : (16 : ℚ).num = 16 := by norm_num
    rw [hq]
    decide
  have hden : (16 : ℚ).den = 1 := by norm_num
  rw [h16, hden]
  have hs : Nat.sqrt 16 = 4 := (Nat.eq_sqrt.mpr (by norm_num)).symm
  rw [hs, Nat.sqrt_one]
  norm_num

theorem conf_12_4 : calculate_pattern_confidence ratSqrt [12, 4, 12, 4] = 1/2 := by
  unfold calculate_pattern_confidence
  norm_num [ratSqrt_sixteen]

theorem spec_claimed_conf_12_4 : spec_claimed_confidence ratSqrt 5 [12, 4, 12, 4] = 3/5 := by
  unfold spec_claimed_confidence
  norm_num [ratSqrt_sixteen]

/-- The five deploys of the C3 counterexample, on days 0, 12, 16, 28, 32:
five occurrences, intervals 12, 4, 12, 4 (mean 8, stddev 4). -/
def c3Acts : List ActivityLog :=
  [ { activity_id := pystr "a", user_id := pystr "u", activity_type := pystr "deploy"
      description := pystr "d", timestamp := 0, duration := none, success := true
      context := [], metadata := [] }
  , { activity_id := pystr "a", user_id := pystr "u", activity_type := pystr "deploy"
      description := pystr "d", timestamp := 12 * secondsPerDay, duration := none
      success := true, context := [], metadata := [] }
  , { activity_id := pystr "a", user_id := pystr "u", activity_type := pystr "deploy"
      description := pystr "d", timestamp := 16 * secondsPerDay, duration := none
      success := true, context := [], metadata := [] }
  , { activity_id := pystr "a", user_id := pystr "u", activity_type := pystr "deploy"
      description := pystr "d", timestamp := 28 * secondsPerDay, duration := none
      success := true, context := [], metadata := [] }
  , { activity_id := pystr "a", user_id := pystr "u", activity_type := pystr "deploy"
      description := pystr "d", timestamp := 32 * secondsPerDay, duration := none
      success := true, context := [], metadata := [] } ]

/-- Counterexample to C3 as stated: for the five-occurrence group of c3Acts
(intervals 12, 4, 12, 4), the code computes confidence 1/2 — no boost fires,
because the thresholds count intervals, not occurrences — while the claimed
formula (boost ×1.2 at 5 or more occurrences) yields 3/5; the confidence
detect_recurring_tasks actually reports for the group is the code value. -/
theorem C3_counterexample :
    calculate_pattern_confidence ratSqrt [12, 4, 12, 4] = 1/2 ∧
    spec_claimed_confidence ratSqrt 5 [12, 4, 12, 4] = 3/5 ∧
    ((1 : ℚ)/2 ≠ 3/5) ∧
    (detect_recurring_tasks ratSqrt (32 * secondsPerDay) c3Acts (pystr "u") 2).map
      (fun t => t.confidence) = [1/2] := by
  refine ⟨conf_12_4, spec_claimed_conf_12_4, by norm_num, ?_⟩
  have h0 : (detect_recurring_tasks ratSqrt (32 * secondsPerDay) c3Acts (pystr "u") 2).map
      (fun t => t.confidence) =
      [calculate_pattern_confidence ratSqrt
        ((dayIntervals (sortByTimestamp c3Acts)).map (fun i => (i : ℚ)))] := by rfl
  rw [h0]
  have hint : dayIntervals (sortByTimestamp c3Acts) = [12, 4, 12, 4] := by rfl
  rw [hint]
  have hcast : ([12, 4, 12, 4] : List ℤ).map (fun i => (i : ℚ)) = [12, 4, 12, 4] := by
    norm_num
  rw [hcast, conf_12_4]

/-! ## End-to-end weekly scenario (C6) -/

/-- An activity of the C6 scenario. -/
def c6Act (day : ℤ) : ActivityLog :=
  { activity_id := pystr "a", user_id := pystr "u", activity_type := pystr "deploy"
    description := pystr "d", timestamp := day * secondsPerDay, duration := none
    success := true, context := [], metadata := [] }

/-- Four deploys with the same (empty) context signature on days 0, 7, 14
and 21. -/
def c6Acts : List ActivityLog := [c6Act 0, c6Act 7, c6Act 14, c6Act 21]

theorem conf_7_7_7 : calculate_pattern_confidence ratSqrt [7, 7, 7] = 1 := by
  unfold calculate_pattern_confidence
  norm_num [ratSqrt_zero]

theorem sched_7_7_7 : determine_schedule_pattern [7, 7, 7] = pystr "weekly" := by
  unfold determine_schedule_pattern
  norm_num
  intro h
  exact absurd h (by decide)

/-- C6: on the four same-type, same-context activities of days 0, 7, 14, 21,
detect_recurring_tasks with min_frequency 2 returns exactly one TaskPattern,
with schedule_pattern "weekly", frequency 4, average interval 7 days, and
confidence 1 > 0.8. -/
theorem C6_weekly_end_to_end :
    detect_recurring_tasks ratSqrt (21 * secondsPerDay) c6Acts (pystr "u") 2 =
      [{ task_name := pystr "deploy", frequency := 4, avg_interval_days := 7
         context := [], confidence := 1, schedule_pattern := pystr "weekly" }] ∧
    ((1 : ℚ) > 4/5) := by
  constructor
  · have h0 : detect_recurring_tasks ratSqrt (21 * secondsPerDay) c6Acts (pystr "u") 2 =
        [{ task_name := pystr "deploy", frequency := 4
           avg_interval_days :=
             (((dayIntervals (sortByTimestamp c6Acts)).map (fun i => (i : ℚ))).sum /
               (((dayIntervals (sortByTimestamp c6Acts)).map (fun i => (i : ℚ))).length : ℚ))
           context := []
           confidence := calculate_pattern_confidence ratSqrt
             ((dayIntervals (sortByTimestamp c6Acts)).map (fun i => (i : ℚ)))
           schedule_pattern := determine_schedule_pattern
             ((dayIntervals (sortByTimestamp c6Acts)).map (fun i => (i : ℚ))) }] := by rfl
    rw [h0]
    have hiv : (dayIntervals (sortByTimestamp c6Acts)).map (fun i => (i : ℚ)) =
        ([7, 7, 7] : List ℚ) := by decide
    rw [hiv, conf_7_7_7, sched_7_7_7]
    norm_num
  · norm_num

/-! ## Context signature round trip (C9) -/

theorem insertAsc_perm (x : PyStr) (l : List PyStr) :
    List.Perm (insertAsc x l) (x :: l) := by
  induction l with
  | nil => exact List.Perm.refl _
  | cons y ys ih =>
    unfold insertAsc
    split
    · exact (ih.cons y).trans (List.Perm.swap x y ys)
    · exact List.Perm.refl _

theorem sortStrs_perm (l : List PyStr) : List.Perm (sortStrs l) l := by
  induction l with
  | nil => exact List.Perm.refl _
  | cons a rest ih =>
    unfold sortStrs
    rw [List.foldr_cons]
    exact (insertAsc_perm a _).trans (ih.cons a)

theorem splitOnChar_cons (c x : Char) (xs : PyStr) :
    splitOnChar c (x :: xs) =
      match splitOnChar c xs with
      | [] => [[]]
      | y :: ys => if x = c then [] :: y :: ys else (x :: y) :: ys := rfl

theorem splitOnChar_ne_nil (c : Char) (s : PyStr) : splitOnChar c s ≠ [] := by
  induction s with
  | nil => simp [splitOnChar]
  | cons x xs ih =>
    rw [splitOnChar_cons]
    rcases h : splitOnChar c xs with _ | ⟨y, ys⟩
    · exact absurd h ih
    · by_cases hx : x = c <;> simp [hx]

theorem splitOnChar_of_not_mem (c : Char) (p : PyStr) (h : c ∉ p) :
    splitOnChar c p = [p] := by
  induction p with
  | nil => rfl
  | cons x xs ih =>
    have hx : x ≠ c := fun hh => h (hh ▸ List.mem_cons_self x xs)
    have hxs : c ∉ xs := fun hh => h (List.mem_cons_of_mem x hh)
    rw [splitOnChar_cons, ih hxs]
    simp [hx]

theorem splitOnChar_append (c : Char) (p rest : PyStr) (h : c ∉ p) :
    splitOnChar c (p ++ c :: rest) = p :: splitOnChar c rest := by
  induction p with
  | nil =>
    simp only [List.nil_append]
    rcases hs : splitOnChar c rest with _ | ⟨y, ys⟩
    · exact absurd hs (splitOnChar_ne_nil c rest)
    · rw [splitOnChar_cons, hs]
      simp
  | cons x xs ih =>
    have hx : x ≠ c := fun hh => h (hh ▸ List.mem_cons_self x xs)
    have hxs : c ∉ xs := fun hh => h (List.mem_cons_of_mem x hh)
    rw [List.cons_append, splitOnChar_cons, ih hxs]
    simp [hx]

theorem splitOnChar_joinSep (c : Char) (ps : List PyStr) (hne : ps ≠ [])
    (hall : ∀ p ∈ ps, c ∉ p) : splitOnChar c (joinSep c ps) = ps := by
  induction ps with
  | nil => exact absurd rfl hne
  | cons p rest ih =>
    cases rest with
    | nil =>
      unfold joinSep
      exact splitOnChar_of_not_mem c p (hall p (by simp))
    | cons q rs =>
      have h1 : joinSep c (p :: q :: rs) = p ++ c :: joinSep c (q :: rs) := rfl
      rw [h1, splitOnChar_append c p _ (hall p (by simp))]
      rw [ih (by simp) (fun a ha => hall a (List.mem_cons_of_mem p ha))]

theorem splitFirst_encode (c : Char) (k v : PyStr) (h : c ∉ k) :
    splitFirst c (k ++ c :: v) = some (k, v) := by
  induction k with
  | nil => simp [splitFirst]
  | cons x xs ih =>
    have hx : x ≠ c := fun hh => h (hh ▸ List.mem_cons_self x xs)
    have hxs : c ∉ xs := fun hh => h (List.mem_cons_of_mem x hh)
    simp only [List.cons_append]
    unfold splitFirst
    rw [ih hxs]
    simp [hx]

/-- The "key=value" encoding of one signature part. -/
def encPart (kv : PyStr × PyStr) : PyStr := kv.1 ++ '=' :: kv.2

/-- The (key, value) pairs that _create_context_signature encodes, in
important-key order. -/
def signaturePairs (ctx : List (PyStr × PyStr)) : List (PyStr × PyStr) :=
  important_keys.filterMap (fun key =>
    match pyLookup ctx key with
    | some v => if v ≠ [] then some (key, v) else none
    | none => none)

theorem create_context_signature_eq (ctx : List (PyStr × PyStr)) :
    create_context_signature ctx =
      joinSep '|' (sortStrs ((signaturePairs ctx).map encPart)) := by
  have hfun : (fun key => match pyLookup ctx key with
      | some v => if v ≠ [] then some (key ++ '=' :: v) else none
      | none => none) =
      (fun key => Option.map encPart (match pyLookup ctx key with
      | some v => if v ≠ [] then some (key, v) else none
      | none => none)) := by
    funext key
    cases pyLookup ctx key with
    | none => rfl
    | some v => by_cases hv : v = [] <;> simp [hv, encPart]
  show joinSep '|' (sortStrs (important_keys.filterMap (fun key =>
      match pyLookup ctx key with
      | some v => if v ≠ [] then some (key ++ '=' :: v) else none
      | none => none))) = _
  rw [hfun]
  unfold signaturePairs
  rw [List.map_filterMap]

theorem mem_signaturePairs (ctx : List (PyStr × PyStr)) (k v : PyStr) :
    (k, v) ∈ signaturePairs ctx ↔
      k ∈ important_keys ∧ pyLookup ctx k = some v ∧ v ≠ [] := by
  unfold signaturePairs
  rw [List.mem_filterMap]
  constructor
  · rintro ⟨a, ha, heq⟩
    rcases hl : pyLookup ctx a with _ | w
    · rw [hl] at heq
      exact Option.noConfusion heq
    · rw [hl] at heq
      by_cases hw : w = []
      · simp [hw] at heq
      · simp only [hw, ne_eq, not_false_eq_true, if_true, Option.some.injEq,
          Prod.mk.injEq] at heq
        exact ⟨heq.1 ▸ ha, heq.1 ▸ (heq.2 ▸ hl), heq.2 ▸ hw⟩
  · rintro ⟨hk, hl, hv⟩
    exact ⟨k, hk, by simp [hl, hv]⟩

theorem filterMap_keys_sublist {κ β : Type} (f : κ → Option (κ × β))
    (hf : ∀ k kv, f k = some kv → kv.1 = k) (ks : List κ) :
    List.Sublist ((ks.filterMap f).map Prod.fst) ks := by
  induction ks with
  | nil => simp
  | cons k rest ih =>
    rw [List.filterMap_cons]
    cases hfk : f k with
    | none => exact ih.cons k
    | some kv =>
      rw [List.map_cons, hf k kv hfk]
      exact ih.cons₂ k

theorem signaturePairs_keys_sublist (ctx : List (PyStr × PyStr)) :
    List.Sublist ((signaturePairs ctx).map Prod.fst) important_keys := by
  unfold signaturePairs
  refine filterMap_keys_sublist _ ?_ important_keys
  intro k kv heq
  rcases hl : pyLookup ctx k with _ | w
  · rw [hl] at heq; exact Option.noConfusion heq
  · rw [hl] at heq
    by_cases hw : w = []
    · simp [hw] at heq
    · simp only [hw, ne_eq, not_false_eq_true, if_true, Option.some.injEq] at heq
      rw [← heq]

/-- Insertion into a list of pairs, ordered by the encoded part (the
pair-level image of insertAsc, used only in the round-trip proof). -/
def insertPairByEnc (x : PyStr × PyStr) :
    List (PyStr × PyStr) → List (PyStr × PyStr)
  | [] => [x]
  | y :: ys => if lexLt (encPart y) (encPart x) then y :: insertPairByEnc x ys
               else x :: y :: ys

/-- Pair-level image of sortStrs. -/
def sortPairsByEnc (l : List (PyStr × PyStr)) : List (PyStr × PyStr) :=
  l.foldr insertPairByEnc []

theorem insertAsc_cons (x y : PyStr) (ys : List PyStr) :
    insertAsc x (y :: ys) =
      if lexLt y x then y :: insertAsc x ys else x :: y :: ys := rfl

theorem insertPairByEnc_cons (x y : PyStr × PyStr) (ys : List (PyStr × PyStr)) :
    insertPairByEnc x (y :: ys) =
      if lexLt (encPart y) (encPart x) then y :: insertPairByEnc x ys
      else x :: y :: ys := rfl

theorem map_encPart_insert (x : PyStr × PyStr) (l : List (PyStr × PyStr)) :
    (insertPairByEnc x l).map encPart = insertAsc (encPart x) (l.map encPart) := by
  induction l with
  | nil => rfl
  | cons y ys ih =>
    rw [insertPairByEnc_cons, List.map_cons, insertAsc_cons]
    by_cases h : lexLt (encPart y) (encPart x) <;> simp [h, ih]

theorem map_encPart_sort (l : List (PyStr × PyStr)) :
    (sortPairsByEnc l).map encPart = sortStrs (l.map encPart) := by
  induction l with
  | nil => rfl
  | cons x xs ih =>
    unfold sortPairsByEnc sortStrs
    rw [List.foldr_cons, List.map_cons, List.foldr_cons, map_encPart_insert]
    unfold sortPairsByEnc sortStrs at ih
    rw [ih]

theorem insertPairByEnc_perm (x : PyStr × PyStr) (l : List (PyStr × PyStr)) :
    List.Perm (insertPairByEnc x l) (x :: l) := by
  induction l with
  | nil => exact List.Perm.refl _
  | cons y ys ih =>
    unfold insertPairByEnc
    split
    · exact (ih.cons y).trans (List.Perm.swap x y ys)
    · exact List.Perm.refl _

theorem sortPairsByEnc_perm (l : List (PyStr × PyStr)) :
    List.Perm (sortPairsByEnc l) l := by
  induction l with
  | nil => exact List.Perm.refl _
  | cons a rest ih =>
    unfold sortPairsByEnc
    rw [List.foldr_cons]
    exact (insertPairByEnc_perm a _).trans (ih.cons a)

theorem parse_foldl_encoded (pairs : List (PyStr × PyStr))
    (acc : List (PyStr × PyStr)) (hk : ∀ kv ∈ pairs, '=' ∉ kv.1) :
    (pairs.map encPart).foldl (fun ctx part =>
      match splitFirst '=' part with
      | some kv => pyDictSet ctx kv.1 kv.2
      | none => ctx) acc =
    pairs.foldl (fun ctx kv => pyDictSet ctx kv.1 kv.2) acc := by
  induction pairs generalizing acc with
  | nil => rfl
  | cons kv rest ih =>
    rw [List.map_cons, List.foldl_cons, List.foldl_cons]
    rw [show encPart kv = kv.1 ++ '=' :: kv.2 from rfl]
    rw [splitFirst_encode '=' kv.1 kv.2 (hk kv (by simp))]
    exact ih _ (fun a ha => hk a (List.mem_cons_of_mem kv ha))

theorem foldl_pyDictSet_fresh (pairs acc : List (PyStr × PyStr))
    (hfresh : ∀ kv ∈ pairs, hasKey acc kv.1 = false)
    (hnd : (pairs.map Prod.fst).Nodup) :
    pairs.foldl (fun ctx kv => pyDictSet ctx kv.1 kv.2) acc = acc ++ pairs := by
  induction pairs generalizing acc with
  | nil => simp
  | cons kv rest ih =>
    rw [List.map_cons, List.nodup_cons] at hnd
    rw [List.foldl_cons]
    have hset : pyDictSet acc kv.1 kv.2 = acc ++ [kv] := by
      rw [pyDictSet, hfresh kv (by simp)]
      simp
    rw [hset, ih (acc ++ [kv]) ?_ hnd.2]
    · simp
    · intro a ha
      rw [hasKey_append, Bool.or_eq_false_iff]
      refine ⟨hfresh a (List.mem_cons_of_mem kv ha), ?_⟩
      have : ¬kv.1 = a.1 := fun hh => hnd.1 (hh ▸ (List.mem_map_of_mem Prod.fst ha))
      simp [hasKey, this]

theorem pyLookup_of_mem_nodup {κ β : Type} [DecidableEq κ]
    (l : List (κ × β)) (q : κ) (v : β)
    (hnd : (l.map Prod.fst).Nodup) (hm : (q, v) ∈ l) : pyLookup l q = some v := by
  induction l with
  | nil => simp at hm
  | cons kv rest ih =>
    rw [List.map_cons, List.nodup_cons] at hnd
    rcases List.mem_cons.mp hm with heq | hmem
    · rw [← heq]
      simp [pyLookup]
    · have hne : kv.1 ≠ q := by
        intro hh
        exact hnd.1 (hh ▸ (List.mem_map_of_mem Prod.fst hmem))
      simp only [pyLookup, hne, if_false]
      exact ih hnd.2 hmem

theorem pyLookup_eq_none_of_not_mem_keys {κ β : Type} [DecidableEq κ]
    (l : List (κ × β)) (q : κ) (h : q ∉ l.map Prod.fst) : pyLookup l q = none := by
  induction l with
  | nil => rfl
  | cons kv rest ih =>
    rw [List.map_cons] at h
    have h1 : kv.1 ≠ q := fun hh => h (hh ▸ List.mem_cons_self kv.1 _)
    have h2 : q ∉ rest.map Prod.fst := fun hh => h (List.mem_cons_of_mem _ hh)
    simp only [pyLookup, h1, if_false]
    exact ih h2

theorem joinSep_ne_nil (c : Char) (ps : List PyStr) (hne : ps ≠ [])
    (hall : ∀ p ∈ ps, p ≠ []) : joinSep c ps ≠ [] := by
  cases ps with
  | nil => exact absurd rfl hne
  | cons p rest =>
    cases rest with
    | nil => exact hall p (by simp)
    | cons q rs =>
      show p ++ c :: joinSep c (q :: rs) ≠ []
      simp

theorem encPart_ne_nil (kv : PyStr × PyStr) : encPart kv ≠ [] := by
  simp [encPart]

/-- C9: for every context whose values at the four important keys are
non-empty and free of the separator character, parsing the created context
signature returns exactly the restriction of the context to the important
keys (as a dict, i.e. lookup by lookup); no salient key is lost. -/
theorem C9_context_signature_roundtrip (ctx : List (PyStr × PyStr))
    (hv : ∀ k ∈ important_keys,
      match pyLookup ctx k with
      | some v => v ≠ [] ∧ '|' ∉ v
      | none => True)
    (q : PyStr) :
    pyLookup (parse_context_signature (create_context_signature ctx)) q =
      if q ∈ important_keys then pyLookup ctx q else none := by
  have hkeysND : important_keys.Nodup := by decide
  have hkeyEq : ∀ k ∈ important_keys, '=' ∉ k := by decide
  have hkeyBar : ∀ k ∈ important_keys, '|' ∉ k := by decide
  have hmemP : ∀ k v, (k, v) ∈ signaturePairs ctx ↔
      k ∈ important_keys ∧ pyLookup ctx k = some v ∧ v ≠ [] :=
    fun k v => mem_signaturePairs ctx k v
  have hndP : ((signaturePairs ctx).map Prod.fst).Nodup :=
    (signaturePairs_keys_sublist ctx).nodup hkeysND
  have hperm : List.Perm (sortPairsByEnc (signaturePairs ctx)) (signaturePairs ctx) :=
    sortPairsByEnc_perm (signaturePairs ctx)
  have hndS : ((sortPairsByEnc (signaturePairs ctx)).map Prod.fst).Nodup :=
    ((hperm.map Prod.fst).nodup_iff).mpr hndP
  rw [create_context_signature_eq ctx, ← map_encPart_sort (signaturePairs ctx)]
  by_cases hP : signaturePairs ctx = []
  · have hs : sortPairsByEnc (signaturePairs ctx) = [] := by
      rw [hP]
      rfl
    rw [hs]
    simp only [List.map_nil]
    rw [show parse_context_signature (joinSep '|' []) = [] from rfl]
    show (none : Option PyStr) = _
    by_cases hqi : q ∈ important_keys
    · rw [if_pos hqi]
      rcases hql : pyLookup ctx q with _ | v
      · rfl
      · exfalso
        have hv2 := hv q hqi
        rw [hql] at hv2
        have hin : (q, v) ∈ signaturePairs ctx := (hmemP q v).mpr ⟨hqi, hql, hv2.1⟩
        rw [hP] at hin
        simp at hin
    · rw [if_neg hqi]
  · have hsne : sortPairsByEnc (signaturePairs ctx) ≠ [] := by
      intro hh
      exact hP (List.Perm.eq_nil (hh ▸ hperm).symm)
    have hpartsBar : ∀ p ∈ (sortPairsByEnc (signaturePairs ctx)).map encPart, '|' ∉ p := by
      intro p hp
      rcases List.mem_map.mp hp with ⟨kv, hkv, rfl⟩
      obtain ⟨hkI, hkl, _⟩ := (hmemP kv.1 kv.2).mp (Prod.mk.eta ▸ hperm.mem_iff.mp hkv)
      intro hbar
      rcases List.mem_append.mp hbar with h1 | h2
      · exact (hkeyBar _ hkI) h1
      · rcases List.mem_cons.mp h2 with h3 | h4
        · exact absurd h3 (by decide)
        · have hv2 := hv kv.1 hkI
          rw [hkl] at hv2
          exact hv2.2 h4
    have hpartsNe : ∀ p ∈ (sortPairsByEnc (signaturePairs ctx)).map encPart, p ≠ [] := by
      intro p hp
      rcases List.mem_map.mp hp with ⟨kv, _, rfl⟩
      exact encPart_ne_nil kv
    have hmapne : (sortPairsByEnc (signaturePairs ctx)).map encPart ≠ [] := by
      simpa using hsne
    have hsig_ne : joinSep '|' ((sortPairsByEnc (signaturePairs ctx)).map encPart) ≠ [] :=
      joinSep_ne_nil _ _ hmapne hpartsNe
    unfold parse_context_signature
    rw [if_neg hsig_ne]
    rw [splitOnChar_joinSep '|' _ hmapne hpartsBar]
    rw [parse_foldl_encoded _ _ (by
      intro kv hkv
      obtain ⟨hkI, _, _⟩ := (hmemP kv.1 kv.2).mp (Prod.mk.eta ▸ hperm.mem_iff.mp hkv)
      exact hkeyEq _ hkI)]
    rw [foldl_pyDictSet_fresh (sortPairsByEnc (signaturePairs ctx)) []
      (fun kv _ => rfl) hndS, List.nil_append]
    by_cases hqi : q ∈ important_keys
    · rw [if_pos hqi]
      rcases hql : pyLookup ctx q with _ | v
      · refine pyLookup_eq_none_of_not_mem_keys _ q ?_
        intro hqk
        rcases List.mem_map.mp hqk with ⟨kv, hkv, hfst⟩
        obtain ⟨hkI, hkl, _⟩ := (hmemP kv.1 kv.2).mp (Prod.mk.eta ▸ hperm.mem_iff.mp hkv)
        rw [hfst, hql] at hkl
        exact Option.noConfusion hkl
      · have hv2 := hv q hqi
        rw [hql] at hv2
        have hmem : (q, v) ∈ sortPairsByEnc (signaturePairs ctx) :=
          hperm.mem_iff.mpr ((hmemP q v).mpr ⟨hqi, hql, hv2.1⟩)
        exact pyLookup_of_mem_nodup _ q v hndS hmem
    · rw [if_neg hqi]
      refine pyLookup_eq_none_of_not_mem_keys _ q ?_
      intro hqk
      rcases List.mem_map.mp hqk with ⟨kv, hkv, hfst⟩
      obtain ⟨hkI, _, _⟩ := (hmemP kv.1 kv.2).mp (Prod.mk.eta ▸ hperm.mem_iff.mp hkv)
      exact hqi (hfst ▸ hkI)

/-- The concrete context of the C9 witness: one important key with a plain
value, one non-salient key. -/
def c9Ctx : List (PyStr × PyStr) :=
  [(pystr "goal_type", pystr "build"), (pystr "other", pystr "z")]

/-- Witness for C9: on c9Ctx the round trip returns the goal_type binding
and drops the non-salient key. -/
theorem C9_witness :
    pyLookup (parse_context_signature (create_context_signature c9Ctx)) (pystr "goal_type") =
      some (pystr "build") ∧
    pyLookup (parse_context_signature (create_context_signature c9Ctx)) (pystr "other") =
      none := by
  have h := C9_context_signature_roundtrip c9Ctx (by
    intro k hk
    fin_cases hk
    · exact trivial
    · exact ⟨by decide, by decide⟩
    · exact trivial
    · exact trivial)
  constructor
  · rw [h (pystr "goal_type"), if_pos (by decide)]
    decide
  · rw [h (pystr "other"), if_neg (by decide)]
